/-
Spec2Proof: a verification development for the MHE retrieval core.

This file gives a shallow embedding, in Lean 4, of the retrieval core of the
`mhe` repository and proves (or refutes, by computing concrete runs) the
behavioural claims made about it.  The embedded code is:

  * `src/mhe/access/routers/search.py` — the text / vector / hybrid search
    endpoints and the RAG endpoint (`text_search`, `vector_search`,
    `hybrid_search`, `rag_query`);
  * `src/mhe/access/error_handling.py` — the `InputValidator` routines used
    by those endpoints;
  * `src/mhe/memory/embeddings.py` — the batch embedding pipeline
    (`EmbeddingPipeline.stream_unembedded_messages` /
    `stream_unembedded_memory_cards` / `bulk_upsert_embeddings` /
    `process_embedding_pipeline`).

Modelling conventions:

  * Python strings are modelled as `List Nat` (one entry per Unicode code
    point), so that every string operation is a structurally recursive,
    kernel-computable Lean function.  `pstr` converts a Lean string literal.
  * Python floats are modelled as exact rationals (`ℚ`); every arithmetic
    value reached by the claims is exactly representable, so no rounding
    behaviour is lost.
  * Database tables are lists of rows held in a `Store`; SQLAlchemy queries
    are modelled by their relational meaning (joins become lookups, filters
    become `List.filter`, `LIMIT`/`OFFSET` become `take`/`drop`).  Rows keep
    the order of the store's lists (the source queries have no ORDER BY).
  * `async` functions are pure functions; a raised exception is an
    `Except.error`.  Whether an external call (the database session) raises
    is modelled by an explicit boolean oracle argument (`dbFail` and
    friends), mirroring the `try/except` structure of the source.
  * Wall-clock fields (`execution_time_ms`, `generation_time_ms`), logging,
    response `metadata` dictionaries and the LLM generation step of
    `rag_query` are not modelled: no claim mentions them and they do not
    feed back into any modelled value.
-/
import Mathlib

namespace MHE

/-! ### Python string model

Strings are lists of code points.  The helpers below implement exactly the
Python string operations used by the embedded code: `str.lower`, `str.split`
(whitespace split, empty pieces dropped), `str.strip`, `str.replace`,
`pat in s`, `s.count(pat)` (non-overlapping, left to right) and slicing
`s[:n]` (`List.take`). -/

/-- Python strings, one `Nat` per code point. -/
abbrev PyStr := List Nat

/-- Code points of a Lean string literal. -/
def pstr (s : String) : PyStr := s.data.map Char.toNat

/-- ASCII lowering of one code point, as `str.lower` acts on the ASCII range
(every string reached by a claim is ASCII). -/
def lowerChar (c : Nat) : Nat := if 65 ≤ c ∧ c ≤ 90 then c + 32 else c

/-- Python `s.lower()`. -/
def pyLower (s : PyStr) : PyStr := s.map lowerChar

/-- Does `pat` occur at the head of `s`? -/
def listStartsWith : PyStr → PyStr → Bool
  | _, [] => true
  | [], _ :: _ => false
  | a :: s, b :: p => a == b && listStartsWith s p

/-- Scan of `s.count(pat)`: the `Nat` argument counts code points still to be
skipped because they belong to the previously found occurrence (Python's
count is non-overlapping, left to right). -/
def countOccGo (pat : PyStr) : PyStr → Nat → Nat
  | [], _ => 0
  | _ :: rest, k+1 => countOccGo pat rest k
  | c :: rest, 0 =>
    if listStartsWith (c :: rest) pat
    then 1 + countOccGo pat rest (pat.length - 1)
    else countOccGo pat rest 0

/-- Python `s.count(pat)`. -/
def countOcc (s pat : PyStr) : Nat :=
  if pat.isEmpty then s.length + 1 else countOccGo pat s 0

/-- Python `pat in s`. -/
def containsSub (s pat : PyStr) : Bool := decide (0 < countOcc s pat)

/-- Scan of `s.split()`, accumulating the current (reversed) word. -/
def pySplitGo : PyStr → PyStr → List PyStr
  | [], acc => if acc.isEmpty then [] else [acc.reverse]
  | c :: rest, acc =>
    if c == 32 ∨ c == 9 ∨ c == 10 ∨ c == 13 ∨ c == 11 ∨ c == 12 then
      if acc.isEmpty then pySplitGo rest [] else acc.reverse :: pySplitGo rest []
    else pySplitGo rest (c :: acc)

/-- Python `s.split()`: split on runs of whitespace, dropping empty pieces. -/
def pySplit (s : PyStr) : List PyStr := pySplitGo s []

/-- Is the code point Python whitespace (ASCII range)? -/
def isWsChar (c : Nat) : Bool := c == 32 ∨ c == 9 ∨ c == 10 ∨ c == 13 ∨ c == 11 ∨ c == 12

/-- Python `s.strip()`. -/
def pyStrip (s : PyStr) : PyStr :=
  ((s.dropWhile isWsChar).reverse.dropWhile isWsChar).reverse

/-- Scan of `s.replace(pat, rep)`: the `Nat` argument counts code points of a
found occurrence still to be dropped. -/
def pyReplaceGo (pat rep : PyStr) : PyStr → Nat → PyStr
  | [], _ => []
  | _ :: rest, k+1 => pyReplaceGo pat rep rest k
  | c :: rest, 0 =>
    if listStartsWith (c :: rest) pat
    then rep ++ pyReplaceGo pat rep rest (pat.length - 1)
    else c :: pyReplaceGo pat rep rest 0

/-- Python `s.replace(pat, rep)` for non-empty `pat` (every pattern passed by
the embedded code is non-empty). -/
def pyReplace (s pat rep : PyStr) : PyStr := pyReplaceGo pat rep s 0

/-! ### Data model

Rows of the `mhe` schema, with the fields the embedded code reads.  The ORM
module `mhe/memory/models.py` itself is not part of the sources; field names
and join keys are taken from their uses in `search.py` and `embeddings.py`
(`MemoryCard` carries both the `content_summary`/`importance_score` fields
read by search and the `title`/`summary` fields read by the embedding
pipeline; `key_concepts` is kept in its text-cast form, which is the only
form the search filter reads). -/

structure Assistant where
  id : PyStr
  name : PyStr
deriving DecidableEq, Repr

structure Thread where
  id : PyStr
  assistantId : PyStr
  title : PyStr
deriving DecidableEq, Repr

structure Message where
  id : PyStr
  threadId : PyStr
  role : PyStr
  content : PyStr
  timestamp : Int
deriving DecidableEq, Repr

structure Artifact where
  id : PyStr
  messageId : PyStr
  title : PyStr
  content : PyStr
deriving DecidableEq, Repr

structure MemoryCard where
  id : PyStr
  messageId : PyStr
  contentSummary : PyStr
  keyConceptsText : PyStr
  importanceScore : ℚ
  title : PyStr
  summary : PyStr
deriving DecidableEq, Repr

/-- An `EmbeddingRecord` row (`mhe.embedding`).  The surrogate primary key
`id` and `created_at` are not modelled: the code only reads the conflict key
`(target_kind, target_id, model)`, `dim` and `vector`. -/
structure Embedding where
  targetKind : String
  targetId : PyStr
  model : String
  dim : Nat
  vector : List ℚ
deriving DecidableEq, Repr

/-- The database contents visible to the retrieval core. -/
structure Store where
  assistants : List Assistant
  threads : List Thread
  messages : List Message
  memoryCards : List MemoryCard
  artifacts : List Artifact
deriving DecidableEq, Repr

/-! ### Request / response models (pydantic classes of `search.py`) -/

structure SearchQuery where
  query : PyStr
  limit : Nat
  offset : Nat
  assistantFilter : Option (List PyStr)
  dateFrom : Option Int
  dateTo : Option Int
  includeArtifacts : Bool
  includeMemoryCards : Bool
deriving DecidableEq, Repr

structure VectorSearchQuery where
  query : PyStr
  similarityThreshold : ℚ
  limit : Nat
  assistantFilter : Option (List PyStr)
deriving DecidableEq, Repr

structure HybridSearchQuery where
  query : PyStr
  textWeight : ℚ
  vectorWeight : ℚ
  limit : Nat
  assistantFilter : Option (List PyStr)
deriving DecidableEq, Repr

structure RAGQuery where
  query : PyStr
  maxContextTokens : Nat
  maxResults : Nat
  assistantFilter : Option (List PyStr)
  includeConversationContext : Bool
  temperature : ℚ
deriving DecidableEq, Repr

structure SearchResult where
  id : PyStr
  type : PyStr
  content : PyStr
  title : Option PyStr
  score : ℚ
  timestamp : Int
  assistantName : PyStr
  threadTitle : PyStr
deriving DecidableEq, Repr

structure SearchResponse where
  results : List SearchResult
  totalCount : Nat
  query : PyStr
  searchType : PyStr
deriving DecidableEq, Repr

structure RAGContext where
  sourceId : PyStr
  sourceType : PyStr
  content : PyStr
  assistantName : PyStr
  threadTitle : PyStr
  timestamp : Int
  relevanceScore : ℚ
deriving DecidableEq, Repr

/-- `RAGResponse` without the LLM-generated `answer` (the generation call is
an external collaborator whose output feeds no modelled value). -/
structure RAGResponse where
  query : PyStr
  contexts : List RAGContext
  totalContextTokens : Nat
  sourcesCount : Nat
deriving DecidableEq, Repr

/-! ### Errors and validators (`error_handling.py`)

`APIError` subclasses are collapsed to the constructors the embedded
endpoints actually raise; the payload string is a fixed label (messages are
never branched on).  `InputValidator.sanitize_string` is modelled by its
HTML-entity replacements and final `strip`; the regex-based
injection-pattern rejections are omitted — they only shrink the set of
accepted strings, and no claim depends on a string containing such a
pattern. -/

inductive ApiError where
  | validation : String → ApiError
  | database : String → ApiError
  | externalService : String → String → ApiError
deriving DecidableEq, Repr

deriving instance DecidableEq for Except

/-- `InputValidator.sanitize_string`: HTML-entity encoding then `strip()`. -/
def sanitizeString (s : PyStr) : PyStr :=
  pyStrip (pyReplace (pyReplace (pyReplace (pyReplace s
    (pstr "<") (pstr "&lt;")) (pstr ">") (pstr "&gt;"))
    (pstr "\x22") (pstr "&quot;")) (pstr "\x27") (pstr "&#x27;"))

/-- `InputValidator.validate_string` with `sanitize=True` and no pattern. -/
def validate_string (value : PyStr) (minLength : Nat) (maxLength : Nat)
    (allowEmpty : Bool) : Except ApiError PyStr :=
  if !allowEmpty ∧ (pyStrip value).isEmpty then
    .error (.validation "cannot be empty")
  else if value.length < minLength then
    .error (.validation "too short")
  else if maxLength < value.length then
    .error (.validation "too long")
  else
    .ok (sanitizeString value)

/-- `InputValidator.validate_search_query`: a 1..500 character non-empty
string, sanitized, with at most 50 whitespace-separated terms. -/
def validate_search_query (q : PyStr) : Except ApiError PyStr :=
  match validate_string q 1 500 false with
  | .error e => .error e
  | .ok s =>
    if 50 < (pySplit s).length then .error (.validation "too many terms")
    else .ok s

/-- `InputValidator.validate_float` with both bounds supplied. -/
def validate_float (x lo hi : ℚ) : Except ApiError ℚ :=
  if x < lo then .error (.validation "too small")
  else if hi < x then .error (.validation "too large")
  else .ok x

/-- `InputValidator.validate_integer` with optional bounds. -/
def validate_integer (x : Int) (lo hi : Option Int) : Except ApiError Int :=
  if (match lo with | some l => decide (x < l) | none => false) then
    .error (.validation "too small")
  else if (match hi with | some h => decide (h < x) | none => false) then
    .error (.validation "too large")
  else .ok x

/-- `validate_pagination`: `offset ≥ 0`, `1 ≤ limit ≤ 100` (no offset
maximum). -/
def validate_pagination (offset limit : Int) : Except ApiError (Int × Int) :=
  match validate_integer offset (some 0) none with
  | .error e => .error e
  | .ok o =>
    match validate_integer limit (some 1) (some 100) with
    | .error e => .error e
    | .ok l => .ok (o, l)

/-- Validation of one assistant name (`validate_string` 1..100, sanitized). -/
def validate_assistant_name (n : PyStr) : Except ApiError PyStr :=
  validate_string n 1 100 true

/-- `InputValidator.validate_list` over assistant names, max 20 entries. -/
def validate_assistant_filter (af : Option (List PyStr)) :
    Except ApiError (Option (List PyStr)) :=
  match af with
  | none => .ok none
  | some names =>
    if 20 < names.length then .error (.validation "too many items")
    else
      match names.mapM validate_assistant_name with
      | .error e => .error e
      | .ok v => .ok (some v)

end MHE

namespace MHE

/-! ### `text_search` (`search.py` lines 112-297)

The SQLAlchemy query `session.query(Message).join(Thread).join(Assistant)`
is the inner join below; `.offset(o).limit(l)` is `drop o |>.take l`; the
unordered result keeps store order.  The no-op `.filter(whereclause is not
None)` (always `filter(True)` on a validated query) and the `joinedload`
eager-loading options are not modelled — they do not change the result
set. -/

/-- `search_terms = validated_query.lower().split()`. -/
def searchTerms (vq : PyStr) : List PyStr := pySplit (pyLower vq)

/-- The `Message.thread` relationship (join on `thread_id`). -/
def threadOf (store : Store) (m : Message) : Option Thread :=
  store.threads.find? (fun t => t.id == m.threadId)

/-- The `Thread.assistant` relationship (join on `assistant_id`). -/
def assistantOf (store : Store) (t : Thread) : Option Assistant :=
  store.assistants.find? (fun a => a.id == t.assistantId)

/-- Rows of `Message JOIN Thread JOIN Assistant`, in store order. -/
def messageRows (store : Store) : List (Message × Thread × Assistant) :=
  store.messages.filterMap (fun m =>
    match threadOf store m with
    | none => none
    | some t =>
      match assistantOf store t with
      | none => none
      | some a => some (m, t, a))

/-- One term's condition: `lower(content) contains term OR lower(title)
contains term`. -/
def termCondition (term : PyStr) (m : Message) (t : Thread) : Bool :=
  containsSub (pyLower m.content) term || containsSub (pyLower t.title) term

/-- `and_(*text_conditions)` over all search terms (no condition when the
term list is empty, mirroring `if text_conditions:`). -/
def matchesAllTerms (terms : List PyStr) (m : Message) (t : Thread) : Bool :=
  if terms.isEmpty then true else terms.all (fun term => termCondition term m t)

/-- `Assistant.name.in_(assistant_filter)`; `name` is CITEXT, so the match is
case-insensitive. -/
def assistantNameMatch (af : Option (List PyStr)) (a : Assistant) : Bool :=
  match af with
  | none => true
  | some names => names.any (fun n => pyLower n == pyLower a.name)

/-- The filtered message query of `text_search` (text conditions, assistant
filter, date range). -/
def filteredMessageRows (store : Store) (terms : List PyStr) (sq : SearchQuery) :
    List (Message × Thread × Assistant) :=
  (messageRows store).filter (fun row =>
    matchesAllTerms terms row.1 row.2.1 &&
    assistantNameMatch sq.assistantFilter row.2.2 &&
    (match sq.dateFrom with | none => true | some d => decide (d ≤ row.1.timestamp)) &&
    (match sq.dateTo with | none => true | some d => decide (row.1.timestamp ≤ d)))

/-- The term-frequency relevance score:
`min(sum(content.lower().count(term)) / len(terms) / 10, 1)`. -/
def tfScore (terms : List PyStr) (content : PyStr) : ℚ :=
  min ((((terms.map (fun term => countOcc (pyLower content) term)).sum : ℚ)) /
    (terms.length : ℚ) / 10) 1

/-- `content[:500] + "..." if len(content) > 500 else content`. -/
def truncate500 (s : PyStr) : PyStr :=
  if 500 < s.length then s.take 500 ++ pstr "..." else s

/-- The `SearchResult` built for one matching message. -/
def messageResult (terms : List PyStr) (m : Message) (t : Thread) (a : Assistant) :
    SearchResult :=
  { id := m.id, type := pstr "message", content := truncate500 m.content,
    title := none, score := tfScore terms m.content, timestamp := m.timestamp,
    assistantName := a.name, threadTitle := t.title }

/-- The `Message.artifacts` relationship (join on `message_id`). -/
def artifactsOf (store : Store) (m : Message) : List Artifact :=
  store.artifacts.filter (fun ar => ar.messageId == m.id)

/-- The `SearchResult` built for one artifact of a matching message. -/
def artifactResult (terms : List PyStr) (ar : Artifact) (m : Message) (t : Thread)
    (a : Assistant) : SearchResult :=
  { id := ar.id, type := pstr "artifact", content := truncate500 ar.content,
    title := some ar.title, score := tfScore terms ar.content,
    timestamp := m.timestamp, assistantName := a.name, threadTitle := t.title }

/-- The message's result followed by the results of its artifacts that
contain at least one search term (`any(term in artifact.content.lower())`),
when `include_artifacts` is set. -/
def messageBlock (store : Store) (terms : List PyStr) (includeArtifacts : Bool)
    (row : Message × Thread × Assistant) : List SearchResult :=
  messageResult terms row.1 row.2.1 row.2.2 ::
    (if includeArtifacts then
      ((artifactsOf store row.1).filter (fun ar =>
        terms.any (fun term => containsSub (pyLower ar.content) term))).map
        (fun ar => artifactResult terms ar row.1 row.2.1 row.2.2)
    else [])

/-- The `MemoryCard.message` relationship (join on `message_id`), extended to
the thread and assistant joins of the memory-card query. -/
def cardRows (store : Store) : List (MemoryCard × Message × Thread × Assistant) :=
  store.memoryCards.filterMap (fun c =>
    match store.messages.find? (fun m => m.id == c.messageId) with
    | none => none
    | some m =>
      match threadOf store m with
      | none => none
      | some t =>
        match assistantOf store t with
        | none => none
        | some a => some (c, m, t, a))

/-- One term's memory-card condition: `lower(content_summary) contains term
OR lower(cast(key_concepts as text)) contains term`. -/
def cardTermCondition (term : PyStr) (c : MemoryCard) : Bool :=
  containsSub (pyLower c.contentSummary) term ||
    containsSub (pyLower c.keyConceptsText) term

/-- `and_` of the memory-card term conditions. -/
def cardMatchesAllTerms (terms : List PyStr) (c : MemoryCard) : Bool :=
  if terms.isEmpty then true else terms.all (fun term => cardTermCondition term c)

/-- The filtered memory-card query of `text_search`. -/
def filteredCardRows (store : Store) (terms : List PyStr)
    (af : Option (List PyStr)) : List (MemoryCard × Message × Thread × Assistant) :=
  (cardRows store).filter (fun row =>
    cardMatchesAllTerms terms row.1 && assistantNameMatch af row.2.2.2)

/-- The `SearchResult` built for one memory card: the term-frequency score of
its summary, weighted by `importance_score`. -/
def cardResult (terms : List PyStr) (c : MemoryCard) (m : Message) (t : Thread)
    (a : Assistant) : SearchResult :=
  { id := c.id, type := pstr "memory_card", content := c.contentSummary,
    title := none, score := tfScore terms c.contentSummary * c.importanceScore,
    timestamp := m.timestamp, assistantName := a.name, threadTitle := t.title }

/-- Stable insertion step of the descending sort: an element moves past
exactly the elements of strictly smaller score. -/
def insertDescByScore (r : SearchResult) : List SearchResult → List SearchResult
  | [] => [r]
  | x :: xs => if x.score ≤ r.score then r :: x :: xs else x :: insertDescByScore r xs

/-- `results.sort(key=lambda x: x.score, reverse=True)` — Python's sort is
stable; this stable insertion sort produces the same list. -/
def sortByScoreDesc (l : List SearchResult) : List SearchResult :=
  l.foldr insertDescByScore []

/-- The pure body of `text_search` (the `try:` block), after validation, on a
working database session. -/
def text_search_core (store : Store) (sq : SearchQuery) (vq : PyStr)
    (offset limit : Nat) : SearchResponse :=
  let terms := searchTerms vq
  let msgRows := ((filteredMessageRows store terms sq).drop offset).take limit
  let msgResults := (msgRows.map (messageBlock store terms sq.includeArtifacts)).flatten
  let cardResults :=
    if sq.includeMemoryCards then
      ((filteredCardRows store terms sq.assistantFilter).take (limit / 2)).map
        (fun row => cardResult terms row.1 row.2.1 row.2.2.1 row.2.2.2)
    else []
  let final := (sortByScoreDesc (msgResults ++ cardResults)).take limit
  { results := final, totalCount := final.length, query := vq,
    searchType := pstr "text" }

/-- The `text_search` endpoint: validation, then the database work; a raised
database exception (oracle `dbFail`) becomes `DatabaseError`. -/
def text_search (store : Store) (dbFail : Bool) (sq : SearchQuery) :
    Except ApiError SearchResponse :=
  match validate_search_query sq.query with
  | .error e => .error e
  | .ok vq =>
  match validate_pagination (sq.offset : Int) (sq.limit : Int) with
  | .error e => .error e
  | .ok ol =>
  match validate_assistant_filter sq.assistantFilter with
  | .error e => .error e
  | .ok af =>
    if dbFail then .error (.database "Text search operation failed")
    else .ok (text_search_core store { sq with assistantFilter := af } vq
      ol.1.toNat ol.2.toNat)

/-! ### `vector_search` (`search.py` lines 300-368)

The body is a placeholder: it performs no embedding lookup at all, but
falls back to `text_search` and filters by the similarity threshold. -/

/-- Pydantic parsing of `SearchQuery` (field bounds `limit ∈ [1,100]`,
`offset ≥ 0`). -/
def mkSearchQuery (query : PyStr) (limit offset : Int) (af : Option (List PyStr))
    (dateFrom dateTo : Option Int) (includeArtifacts includeMemoryCards : Bool) :
    Except ApiError SearchQuery :=
  if limit < 1 ∨ 100 < limit then .error (.validation "limit out of range")
  else if offset < 0 then .error (.validation "offset out of range")
  else .ok ⟨query, limit.toNat, offset.toNat, af, dateFrom, dateTo,
    includeArtifacts, includeMemoryCards⟩

/-- Pydantic parsing of `VectorSearchQuery` (`similarity_threshold ∈ [0,1]`,
`limit ∈ [1,100]`). -/
def mkVectorSearchQuery (query : PyStr) (thr : ℚ) (limit : Int)
    (af : Option (List PyStr)) : Except ApiError VectorSearchQuery :=
  if thr < 0 ∨ 1 < thr then .error (.validation "similarity_threshold out of range")
  else if limit < 1 ∨ 100 < limit then .error (.validation "limit out of range")
  else .ok ⟨query, thr, limit.toNat, af⟩

/-- The `vector_search` endpoint: validation, then (inside `try:`) the
fallback text query; its results are filtered by `score ≥ threshold` and the
response is relabelled `vector_fallback`.  Any exception inside the `try:`
(oracle `dbFail`, or a failing inner construction) becomes
`ExternalServiceError("embedding_service")`. -/
def vector_search (store : Store) (dbFail : Bool) (q : VectorSearchQuery) :
    Except ApiError SearchResponse :=
  match validate_search_query q.query with
  | .error e => .error e
  | .ok vq =>
  match validate_float q.similarityThreshold 0 1 with
  | .error e => .error e
  | .ok thr =>
  match validate_assistant_filter q.assistantFilter with
  | .error e => .error e
  | .ok af =>
    match mkSearchQuery vq (q.limit : Int) 0 af none none true true >>=
        text_search store dbFail with
    | .ok resp =>
      let filtered := resp.results.filter (fun r => decide (thr ≤ r.score))
      .ok { resp with
        searchType := pstr "vector_fallback"
        results := filtered
        totalCount := filtered.length }
    | .error _ =>
      .error (.externalService "embedding_service" "Vector search operation failed")

end MHE

namespace MHE

/-! ### `hybrid_search` (`search.py` lines 371-479) -/

/-- Python `abs` on a rational. -/
def ratAbs (x : ℚ) : ℚ := if x < 0 then -x else x

/-- Python `dict.__setitem__`, on a dictionary kept as an insertion-ordered
association list with unique keys: overwrite the entry of the key in place,
or append a new key. -/
def dictSet : List (PyStr × SearchResult) → PyStr → SearchResult →
    List (PyStr × SearchResult)
  | [], k, v => [(k, v)]
  | p :: rest, k, v =>
    if p.1 == k then (k, v) :: rest else p :: dictSet rest k v

/-- The vector-pass step of hybrid fusion: add the (weighted) score into the
existing entry of the same id, or insert the result as a new entry. -/
def dictAddScore : List (PyStr × SearchResult) → PyStr → SearchResult →
    List (PyStr × SearchResult)
  | [], k, v => [(k, v)]
  | p :: rest, k, v =>
    if p.1 == k then (p.1, { p.2 with score := p.2.score + v.score }) :: rest
    else p :: dictAddScore rest k v

/-- `combined_results`: the text results are written into the dictionary with
their scores scaled by `text_weight` (a later text result of the same id
overwrites an earlier one), then each vector result's score, scaled by
`vector_weight`, is added to the entry of its id (or inserted).  The merge
key is `result.id` alone. -/
def fuseDict (tresults vresults : List SearchResult) (tw vw : ℚ) :
    List (PyStr × SearchResult) :=
  let textDict := tresults.foldl
    (fun d r => dictSet d r.id { r with score := r.score * tw }) []
  vresults.foldl (fun d r => dictAddScore d r.id { r with score := r.score * vw })
    textDict

/-- The combination step of `hybrid_search`: fuse, sort by combined score
(stable, descending), truncate to `limit`. -/
def combineHybrid (tresp vresp : SearchResponse) (tw vw : ℚ) (limit : Nat)
    (vq : PyStr) : SearchResponse :=
  let combined := fuseDict tresp.results vresp.results tw vw
  let final := (sortByScoreDesc (combined.map (fun p => p.2))).take limit
  { results := final, totalCount := final.length, query := vq,
    searchType := pstr "hybrid" }

/-- The `hybrid_search` endpoint.  Validation (including the rejection of
weight pairs whose sum differs from 1.0 by more than 0.01) happens before
the `try:` block; inside it, the text pass and the vector pass are run with
doubled limits, and any exception on either pass (oracles `textFail`,
`vecFail`) — or a failing pydantic construction of the doubled-limit
sub-queries — becomes `ExternalServiceError("search_engine")`. -/
def hybrid_search (store : Store) (textFail vecFail : Bool)
    (q : HybridSearchQuery) : Except ApiError SearchResponse :=
  match validate_search_query q.query with
  | .error e => .error e
  | .ok vq =>
  match validate_float q.textWeight 0 1 with
  | .error e => .error e
  | .ok tw =>
  match validate_float q.vectorWeight 0 1 with
  | .error e => .error e
  | .ok vw =>
  if 1/100 < ratAbs (tw + vw - 1) then
    .error (.validation "text_weight and vector_weight should sum to 1.0")
  else
  match validate_assistant_filter q.assistantFilter with
  | .error e => .error e
  | .ok af =>
    let body : Except ApiError SearchResponse := do
      let tq ← mkSearchQuery vq ((q.limit : Int) * 2) 0 af none none true true
      let tresp ← text_search store textFail tq
      let vq2 ← mkVectorSearchQuery vq (1/2) ((q.limit : Int) * 2) af
      let vresp ← vector_search store vecFail vq2
      pure (combineHybrid tresp vresp tw vw q.limit vq)
    match body with
    | .ok r => .ok r
    | .error _ =>
      .error (.externalService "search_engine" "Hybrid search operation failed")

/-! ### `rag_query` (`search.py` lines 596-779)

The LLM generation step (`get_generative_client().summarize`) is an
external collaborator whose output feeds only the unmodelled `answer`
field; the context-assembly loop and its token budget are modelled in
full. -/

/-- `prev_message`: the messages of the same thread with strictly earlier
timestamp, ordered by timestamp descending, `first()` — i.e. the
maximum-timestamp such message (first in store order among equals). -/
def prevMessageOf (store : Store) (m : Message) : Option Message :=
  (store.messages.filter (fun x =>
    x.threadId == m.threadId && decide (x.timestamp < m.timestamp))).foldl
    (fun acc x =>
      match acc with
      | none => some x
      | some y => if decide (y.timestamp < x.timestamp) then some x else acc) none

/-- `next_message`: the messages of the same thread with strictly later
timestamp, ordered by timestamp ascending, `first()` — i.e. the
minimum-timestamp such message (first in store order among equals). -/
def nextMessageOf (store : Store) (m : Message) : Option Message :=
  (store.messages.filter (fun x =>
    x.threadId == m.threadId && decide (m.timestamp < x.timestamp))).foldl
    (fun acc x =>
      match acc with
      | none => some x
      | some y => if decide (x.timestamp < y.timestamp) then some x else acc) none

/-- The threaded context text of one message: the `[Previous]`, `[Current]`
and `[Next]` parts joined by newlines, a missing neighbour simply omitted;
without conversation context, the raw message content. -/
def ragContextContent (store : Store) (m : Message) (includeCtx : Bool) : PyStr :=
  if includeCtx then
    let parts :=
      (match prevMessageOf store m with
       | some p =>
         [pstr "[Previous] " ++ p.role ++ pstr ": " ++ p.content.take 200 ++ pstr "..."]
       | none => []) ++
      [pstr "[Current] " ++ m.role ++ pstr ": " ++ m.content] ++
      (match nextMessageOf store m with
       | some n =>
         [pstr "[Next] " ++ n.role ++ pstr ": " ++ n.content.take 200 ++ pstr "..."]
       | none => [])
    List.intercalate (pstr "\n") parts
  else m.content

/-- The message query of `rag_query`: term conditions and assistant filter
(no date filters), `LIMIT max_results`. -/
def ragMessageRows (store : Store) (terms : List PyStr)
    (af : Option (List PyStr)) : List (Message × Thread × Assistant) :=
  (messageRows store).filter (fun row =>
    matchesAllTerms terms row.1 row.2.1 && assistantNameMatch af row.2.2)

/-- The context-assembly loop of `rag_query`: per candidate message, build
the (optionally threaded) content, estimate `len(content) // 4` tokens, and
`break` as soon as adding the whole block would exceed the budget; otherwise
append the context and add its estimate to the running total. -/
def ragLoop (store : Store) (terms : List PyStr) (includeCtx : Bool)
    (budget : Nat) : List (Message × Thread × Assistant) → Nat →
    List RAGContext × Nat
  | [], total => ([], total)
  | row :: rest, total =>
    let content := ragContextContent store row.1 includeCtx
    let est := content.length / 4
    if budget < total + est then ([], total)
    else
      let ctx : RAGContext :=
        { sourceId := row.1.id, sourceType := pstr "message", content := content,
          assistantName := row.2.2.name, threadTitle := row.2.1.title,
          timestamp := row.1.timestamp,
          relevanceScore := tfScore terms row.1.content }
      let rest' := ragLoop store terms includeCtx budget rest (total + est)
      (ctx :: rest'.1, rest'.2)

/-- The `rag_query` endpoint: validation, then (inside `try:`) retrieval and
context assembly; any exception inside the `try:` (oracle `dbFail`) becomes
`ExternalServiceError("llm_service")`.  The pydantic field bounds of
`RAGQuery` coincide with the `InputValidator` re-validation bounds used
here. -/
def rag_query (store : Store) (dbFail : Bool) (q : RAGQuery) :
    Except ApiError RAGResponse :=
  match validate_search_query q.query with
  | .error e => .error e
  | .ok vq =>
  match validate_integer (q.maxContextTokens : Int) (some 500) (some 8000) with
  | .error e => .error e
  | .ok maxTok =>
  match validate_integer (q.maxResults : Int) (some 1) (some 50) with
  | .error e => .error e
  | .ok maxRes =>
  match validate_float q.temperature 0 2 with
  | .error e => .error e
  | .ok _ =>
  match validate_assistant_filter q.assistantFilter with
  | .error e => .error e
  | .ok af =>
    if dbFail then .error (.externalService "llm_service" "RAG query operation failed")
    else
      let terms := searchTerms vq
      let msgs := (ragMessageRows store terms af).take maxRes.toNat
      let built := ragLoop store terms q.includeConversationContext maxTok.toNat msgs 0
      .ok { query := vq
            contexts := built.1
            totalContextTokens := built.2
            sourcesCount := built.1.length }

/-! ### The embedding pipeline (`embeddings.py`)

`stream_unembedded_messages` / `stream_unembedded_memory_cards` differ only
in the target kind and the text extracted per item, so they are the two
instantiations `msgItems` / `cardItems` of one loop.  The anti-join
`SELECT ... OUTER JOIN embedding ON (target_kind, target_id, model) WHERE
embedding.id IS NULL LIMIT batch OFFSET offset` is `unembedded`/`pullBatch`.
The `while True:` generator loop is written with explicit fuel; a non-empty
pull needs `offset` below the number of unembedded items, and `offset`
grows by `batch_size ≥ 1` per round, so `items.length + 1` rounds always
reach the terminating empty pull.  The embedding client is a deterministic
oracle `embedF` (one vector per text, as `generate_embeddings_batch`
produces whether or not the client batches). -/

/-- The anti-join condition: does an `Embedding` row exist for
`(kind, target_id, model)`? -/
def hasEmbeddingFor (recs : List Embedding) (kind : String) (tid : PyStr)
    (model : String) : Bool :=
  recs.any (fun r => r.targetKind == kind && r.targetId == tid && r.model == model)

/-- Items (id, text) of the given kind that have no embedding for `model`. -/
def unembedded (items : List (PyStr × PyStr)) (kind model : String)
    (recs : List Embedding) : List (PyStr × PyStr) :=
  items.filter (fun it => !(hasEmbeddingFor recs kind it.1 model))

/-- One pull of the streaming generator: `LIMIT batchSize OFFSET offset` over
the unembedded items. -/
def pullBatch (items : List (PyStr × PyStr)) (kind model : String)
    (recs : List Embedding) (batchSize offset : Nat) : List (PyStr × PyStr) :=
  ((unembedded items kind model recs).drop offset).take batchSize

/-- `generate_embeddings_batch`: one `EmbeddingResult` per job, the vector
produced by the client. -/
def embedJobResults (embedF : PyStr → List ℚ) (model : String) (dim : Nat)
    (kind : String) (batch : List (PyStr × PyStr)) : List Embedding :=
  batch.map (fun it =>
    { targetKind := kind, targetId := it.1, model := model, dim := dim,
      vector := embedF it.2 })

/-- Equality on the conflict key `(target_kind, target_id, model)`. -/
def sameKey (a b : Embedding) : Bool :=
  a.targetKind == b.targetKind && a.targetId == b.targetId && a.model == b.model

/-- One row of the `INSERT ... ON CONFLICT (target_kind, target_id, model)
DO UPDATE SET vector = excluded.vector`: overwrite the vector of the
existing row of the same key, else insert (`dim` is not in the update
set). -/
def upsertOne (recs : List Embedding) (r : Embedding) : List Embedding :=
  if recs.any (fun x => sameKey x r) then
    recs.map (fun x => if sameKey x r then { x with vector := r.vector } else x)
  else recs ++ [r]

/-- `bulk_upsert_embeddings`: the multi-row upsert statement, row by row. -/
def bulk_upsert_embeddings (recs : List Embedding) (results : List Embedding) :
    List Embedding :=
  results.foldl upsertOne recs

/-- The streaming loop of `process_embedding_pipeline` for one kind: pull a
batch at the current offset, stop if it is empty, otherwise embed, upsert,
advance `offset += batch_size` and continue.  Returns the record table and
the processed count. -/
def streamLoop (embedF : PyStr → List ℚ) (model : String) (dim : Nat)
    (kind : String) (items : List (PyStr × PyStr)) (batchSize : Nat) :
    Nat → Nat → List Embedding → List Embedding × Nat
  | 0, _, recs => (recs, 0)
  | fuel+1, offset, recs =>
    let batch := pullBatch items kind model recs batchSize offset
    if batch.isEmpty then (recs, 0)
    else
      let results := embedJobResults embedF model dim kind batch
      let recs1 := bulk_upsert_embeddings recs results
      let rest := streamLoop embedF model dim kind items batchSize fuel
        (offset + batchSize) recs1
      (rest.1, results.length + rest.2)

/-- One kind's full stream, with enough fuel for the loop to reach its empty
pull. -/
def processStream (embedF : PyStr → List ℚ) (model : String) (dim : Nat)
    (kind : String) (items : List (PyStr × PyStr)) (batchSize : Nat)
    (recs : List Embedding) : List Embedding × Nat :=
  streamLoop embedF model dim kind items batchSize (items.length + 1) 0 recs

/-- The per-item texts of `stream_unembedded_messages`. -/
def msgItems (store : Store) : List (PyStr × PyStr) :=
  store.messages.map (fun m => (m.id, m.content))

/-- The per-item texts of `stream_unembedded_memory_cards`
(`f"{card.title}\n{card.summary}"`). -/
def cardItems (store : Store) : List (PyStr × PyStr) :=
  store.memoryCards.map (fun c => (c.id, c.title ++ pstr "\n" ++ c.summary))

/-- `process_embedding_pipeline`: stream and upsert all message batches, then
all memory-card batches; returns the record table and the
`(messages, memory_cards)` processed counts. -/
def process_embedding_pipeline (embedF : PyStr → List ℚ) (model : String)
    (dim batchSize : Nat) (store : Store) (recs : List Embedding) :
    List Embedding × (Nat × Nat) :=
  let mres := processStream embedF model dim "message" (msgItems store) batchSize recs
  let cres := processStream embedF model dim "memory_card" (cardItems store)
    batchSize mres.1
  (cres.1, (mres.2, cres.2))

end MHE

namespace MHE

/-! ### Remaining parse functions and verification-side definitions -/

/-- Pydantic parsing of `HybridSearchQuery` (`text_weight`, `vector_weight`
∈ [0,1], `limit ∈ [1,100]`). -/
def mkHybridSearchQuery (query : PyStr) (tw vw : ℚ) (limit : Int)
    (af : Option (List PyStr)) : Except ApiError HybridSearchQuery :=
  if tw < 0 ∨ 1 < tw then .error (.validation "text_weight out of range")
  else if vw < 0 ∨ 1 < vw then .error (.validation "vector_weight out of range")
  else if limit < 1 ∨ 100 < limit then .error (.validation "limit out of range")
  else .ok ⟨query, tw, vw, limit.toNat, af⟩

/-- Did the endpoint reject the request (raise), rather than serve it? -/
def isError {α : Type} : Except ApiError α → Bool
  | .error _ => true
  | .ok _ => false

/-- The claimed behaviour of `vector_search` as a refinement target: exactly
the `text_search` response on the validated query and filters, restricted to
results whose score reaches the similarity threshold, relabelled
`vector_fallback` — consulting no embedding. -/
def vector_fallback_spec (store : Store) (q : VectorSearchQuery) (vq : PyStr)
    (af : Option (List PyStr)) : Except ApiError SearchResponse :=
  (text_search store false ⟨vq, q.limit, 0, af, none, none, true, true⟩).map
    (fun tresp =>
      { tresp with
        searchType := pstr "vector_fallback"
        results := tresp.results.filter (fun r => decide (q.similarityThreshold ≤ r.score))
        totalCount :=
          (tresp.results.filter (fun r => decide (q.similarityThreshold ≤ r.score))).length })

/-- The response `vector_search` produces on a working database: the
`text_search_core` response on the validated query, filtered by the
similarity threshold and relabelled. -/
def vector_search_core (store : Store) (vq : PyStr) (thr : ℚ) (limit : Nat)
    (af : Option (List PyStr)) : SearchResponse :=
  let base := text_search_core store ⟨vq, limit, 0, af, none, none, true, true⟩ vq 0 limit
  { results := base.results.filter (fun r => decide (thr ≤ r.score))
    totalCount := (base.results.filter (fun r => decide (thr ≤ r.score))).length
    query := base.query
    searchType := pstr "vector_fallback" }

/-- The additive fused score an id should receive: its weighted text score
plus its weighted vector score, a missing component contributing 0. -/
def fusedScoreSpec (ts vs : List SearchResult) (tw vw : ℚ) (k : PyStr) : ℚ :=
  (match ts.find? (fun t => t.id == k) with
   | some t => t.score * tw
   | none => 0) +
  (match vs.find? (fun v => v.id == k) with
   | some v => v.score * vw
   | none => 0)

/-- Lookup in the fusion dictionary. -/
def dlookup (d : List (PyStr × SearchResult)) (k : PyStr) : Option SearchResult :=
  (d.find? (fun p => p.1 == k)).map (fun p => p.2)

/-- The conflict key of an embedding row. -/
def embKey (r : Embedding) : String × PyStr × String :=
  (r.targetKind, r.targetId, r.model)

/-- At most one embedding row per `(target_kind, target_id, model)` triple. -/
def NoDupKeys (recs : List Embedding) : Prop := (recs.map embKey).Nodup

/-- The embedding row stored for a triple, if any. -/
def findRec (recs : List Embedding) (kind : String) (tid : PyStr)
    (model : String) : Option Embedding :=
  recs.find? (fun r => r.targetKind == kind && r.targetId == tid && r.model == model)

/-- The record table left by one pipeline run. -/
def pipelineRecs (embedF : PyStr → List ℚ) (model : String) (dim batchSize : Nat)
    (store : Store) (recs : List Embedding) : List Embedding :=
  (process_embedding_pipeline embedF model dim batchSize store recs).1

/-! ### Concrete inputs used by counterexamples and witnesses -/

/-- A store with two messages and nothing else: the smallest input on which
the pipeline's offset pagination skips an unembedded item. -/
def pipeStoreC1 : Store :=
  { assistants := [], threads := []
    messages := [⟨pstr "m1", pstr "t1", pstr "user", pstr "a", 0⟩,
                 ⟨pstr "m2", pstr "t1", pstr "user", pstr "b", 1⟩]
    memoryCards := [], artifacts := [] }

/-- The empty store. -/
def emptyStore : Store := ⟨[], [], [], [], []⟩

/-- Code points of `"apple"`, the query used by the concrete runs (stores
and queries that feed `norm_num` evaluations are written as explicit
code-point lists). -/
def appleStr : PyStr := [97, 112, 112, 108, 101]

/-- One assistant `"alice"` (id `"a1"`), one thread `"t1"` titled `"t"`, one
message `"x"` whose content is exactly `"apple"`. -/
def storeC6 : Store :=
  { assistants := [⟨[97, 49], [97, 108, 105, 99, 101]⟩]
    threads := [⟨[116, 49], [97, 49], [116]⟩]
    messages := [⟨[120], [116, 49], [117, 115, 101, 114], appleStr, 0⟩]
    memoryCards := [], artifacts := [] }

/-- A store in which a message and a memory card share the identifier
`"x"` (code point 120) and both match the query `"apple"`. -/
def storeC7 : Store :=
  { assistants := [⟨[97, 49], [97, 108, 105, 99, 101]⟩]
    threads := [⟨[116, 49], [97, 49], [116]⟩]
    messages := [⟨[120], [116, 49], [117, 115, 101, 114], appleStr, 0⟩]
    memoryCards := [⟨[120], [120], appleStr, [107], 1, [116], [107]⟩]
    artifacts := [] }


/-- The RAG request used by the C3 witness: budget 500, one result, no
conversation context, temperature 1. -/
def ragQueryC3 : RAGQuery := ⟨appleStr, 500, 1, none, false, 1⟩

/-- The response `rag_query` produces on `storeC6` for `ragQueryC3`. -/
def ragRespC3 : RAGResponse :=
  { query := appleStr
    contexts := [{ sourceId := [120], sourceType := pstr "message", content := appleStr,
                   assistantName := [97, 108, 105, 99, 101], threadTitle := [116],
                   timestamp := 0, relevanceScore := tfScore [appleStr] appleStr }]
    totalContextTokens := 1
    sourcesCount := 1 }

/-- Three messages of one thread at timestamps 0 < 5 < 9 (ids `"m1"`,
`"m2"`, `"m3"`). -/
def msgT1 : Message := ⟨[109, 49], [116, 49], [117, 115, 101, 114], [97], 0⟩

def msgT2 : Message := ⟨[109, 50], [116, 49], [117, 115, 101, 114], [98], 5⟩

def msgT3 : Message := ⟨[109, 51], [116, 49], [117, 115, 101, 114], [99], 9⟩

/-- A store in which a message (`"m1"`) and a memory card (`"c1"`) with
distinct identifiers both match the query `"apple"`. -/
def storeC7w : Store :=
  { assistants := [⟨[97, 49], [97, 108, 105, 99, 101]⟩]
    threads := [⟨[116, 49], [97, 49], [116]⟩]
    messages := [⟨[109, 49], [116, 49], [117, 115, 101, 114], appleStr, 0⟩]
    memoryCards := [⟨[99, 49], [109, 49], appleStr, [107], 1, [116], [107]⟩]
    artifacts := [] }

end MHE

namespace MHE

/-! ### Helper lemmas: validator and endpoint characterizations -/

lemma validate_float_ok (x lo hi : ℚ) (h0 : lo ≤ x) (h1 : x ≤ hi) :
    validate_float x lo hi = .ok x := by
  unfold validate_float
  rw [if_neg (not_lt.mpr h0), if_neg (not_lt.mpr h1)]

lemma text_search_ok_af (store : Store) (sq : SearchQuery) (vq : PyStr)
    (af : Option (List PyStr))
    (hq : validate_search_query sq.query = .ok vq)
    (haf : validate_assistant_filter sq.assistantFilter = .ok af)
    (hl1 : 1 ≤ sq.limit) (hl2 : sq.limit ≤ 100) :
    text_search store false sq =
      .ok (text_search_core store { sq with assistantFilter := af } vq sq.offset sq.limit) := by
  unfold text_search
  rw [hq]
  have hA : ¬((sq.offset : Int) < 0) := by omega
  have hB : ¬((sq.limit : Int) < 1) := by omega
  have hC : ¬((100 : Int) < (sq.limit : Int)) := by omega
  have h1 : validate_pagination (sq.offset : Int) (sq.limit : Int) =
      .ok ((sq.offset : Int), (sq.limit : Int)) := by
    unfold validate_pagination validate_integer
    simp [hA, hB, hC]
  rw [h1, haf]
  simp only [Bool.false_eq_true, if_false, Int.toNat_natCast]

lemma text_search_fail (store : Store) (sq : SearchQuery) (vq : PyStr)
    (af : Option (List PyStr))
    (hq : validate_search_query sq.query = .ok vq)
    (haf : validate_assistant_filter sq.assistantFilter = .ok af)
    (hl1 : 1 ≤ sq.limit) (hl2 : sq.limit ≤ 100) :
    text_search store true sq = .error (.database "Text search operation failed") := by
  unfold text_search
  rw [hq]
  have hA : ¬((sq.offset : Int) < 0) := by omega
  have hB : ¬((sq.limit : Int) < 1) := by omega
  have hC : ¬((100 : Int) < (sq.limit : Int)) := by omega
  have h1 : validate_pagination (sq.offset : Int) (sq.limit : Int) =
      .ok ((sq.offset : Int), (sq.limit : Int)) := by
    unfold validate_pagination validate_integer
    simp [hA, hB, hC]
  rw [h1, haf]
  simp

lemma mkSearchQuery_okI (vq : PyStr) (l : Int) (af : Option (List PyStr))
    (ia im : Bool) (h1 : 1 ≤ l) (h2 : l ≤ 100) :
    mkSearchQuery vq l 0 af none none ia im =
      .ok ⟨vq, l.toNat, 0, af, none, none, ia, im⟩ := by
  unfold mkSearchQuery
  rw [if_neg (by omega : ¬(l < 1 ∨ 100 < l)), if_neg (by omega : ¬((0 : Int) < 0))]
  simp

lemma mkVectorSearchQuery_okI (vq : PyStr) (thr : ℚ) (l : Int) (af : Option (List PyStr))
    (ht0 : 0 ≤ thr) (ht1 : thr ≤ 1) (h1 : 1 ≤ l) (h2 : l ≤ 100) :
    mkVectorSearchQuery vq thr l af = .ok ⟨vq, thr, l.toNat, af⟩ := by
  unfold mkVectorSearchQuery
  rw [if_neg (by simp [not_or, not_lt]; exact ⟨ht0, ht1⟩),
    if_neg (by omega : ¬(l < 1 ∨ 100 < l))]

lemma vector_search_ok (store : Store) (q : VectorSearchQuery) (vq : PyStr)
    (af : Option (List PyStr))
    (hq : validate_search_query q.query = .ok vq)
    (hqi : validate_search_query vq = .ok vq)
    (haf : validate_assistant_filter q.assistantFilter = .ok af)
    (hafi : validate_assistant_filter af = .ok af)
    (ht0 : 0 ≤ q.similarityThreshold) (ht1 : q.similarityThreshold ≤ 1)
    (hl1 : 1 ≤ q.limit) (hl2 : q.limit ≤ 100) :
    vector_search store false q =
      .ok (vector_search_core store vq q.similarityThreshold q.limit af) := by
  unfold vector_search
  rw [hq, validate_float_ok _ _ _ ht0 ht1, haf]
  dsimp only
  rw [show ((q.limit : Nat) : Int) = (q.limit : Int) from rfl,
    mkSearchQuery_okI vq (q.limit : Int) af true true (by omega) (by omega)]
  have h2 := text_search_ok_af store ⟨vq, (q.limit : Int).toNat, 0, af, none, none, true, true⟩
    vq af hqi hafi (by simp; omega) (by simp; omega)
  rw [show (Except.ok (⟨vq, (q.limit : Int).toNat, 0, af, none, none, true, true⟩ : SearchQuery) >>=
        text_search store false : Except ApiError SearchResponse) =
      text_search store false ⟨vq, (q.limit : Int).toNat, 0, af, none, none, true, true⟩ from rfl]
  rw [h2]
  simp only [Int.toNat_natCast]
  rfl

lemma vector_search_fail (store : Store) (q : VectorSearchQuery) (vq : PyStr)
    (af : Option (List PyStr))
    (hq : validate_search_query q.query = .ok vq)
    (hqi : validate_search_query vq = .ok vq)
    (haf : validate_assistant_filter q.assistantFilter = .ok af)
    (hafi : validate_assistant_filter af = .ok af)
    (ht0 : 0 ≤ q.similarityThreshold) (ht1 : q.similarityThreshold ≤ 1)
    (hl1 : 1 ≤ q.limit) (hl2 : q.limit ≤ 100) :
    vector_search store true q =
      .error (.externalService "embedding_service" "Vector search operation failed") := by
  unfold vector_search
  rw [hq, validate_float_ok _ _ _ ht0 ht1, haf]
  dsimp only
  rw [show ((q.limit : Nat) : Int) = (q.limit : Int) from rfl,
    mkSearchQuery_okI vq (q.limit : Int) af true true (by omega) (by omega)]
  have h2 := text_search_fail store ⟨vq, (q.limit : Int).toNat, 0, af, none, none, true, true⟩
    vq af hqi hafi (by simp; omega) (by simp; omega)
  rw [show (Except.ok (⟨vq, (q.limit : Int).toNat, 0, af, none, none, true, true⟩ : SearchQuery) >>=
        text_search store true : Except ApiError SearchResponse) =
      text_search store true ⟨vq, (q.limit : Int).toNat, 0, af, none, none, true, true⟩ from rfl]
  rw [h2]

lemma hybrid_prelude (store : Store) (q : HybridSearchQuery) (vq : PyStr)
    (af : Option (List PyStr)) (textFail vecFail : Bool)
    (hq : validate_search_query q.query = .ok vq)
    (haf : validate_assistant_filter q.assistantFilter = .ok af)
    (htw0 : 0 ≤ q.textWeight) (htw1 : q.textWeight ≤ 1)
    (hvw0 : 0 ≤ q.vectorWeight) (hvw1 : q.vectorWeight ≤ 1)
    (hsum : ratAbs (q.textWeight + q.vectorWeight - 1) ≤ 1/100) :
    hybrid_search store textFail vecFail q =
      (match (do
        let tq ← mkSearchQuery vq ((q.limit : Int) * 2) 0 af none none true true
        let tresp ← text_search store textFail tq
        let vq2 ← mkVectorSearchQuery vq (1/2) ((q.limit : Int) * 2) af
        let vresp ← vector_search store vecFail vq2
        pure (combineHybrid tresp vresp q.textWeight q.vectorWeight q.limit vq) :
          Except ApiError SearchResponse) with
      | .ok r => .ok r
      | .error _ =>
        .error (.externalService "search_engine" "Hybrid search operation failed")) := by
  unfold hybrid_search
  rw [hq, validate_float_ok _ _ _ htw0 htw1, validate_float_ok _ _ _ hvw0 hvw1]
  dsimp only
  rw [if_neg (not_lt.mpr hsum), haf]

lemma hybrid_search_ok (store : Store) (q : HybridSearchQuery) (vq : PyStr)
    (hq : validate_search_query q.query = .ok vq)
    (hqi : validate_search_query vq = .ok vq)
    (haf : q.assistantFilter = none)
    (htw0 : 0 ≤ q.textWeight) (htw1 : q.textWeight ≤ 1)
    (hvw0 : 0 ≤ q.vectorWeight) (hvw1 : q.vectorWeight ≤ 1)
    (hsum : ratAbs (q.textWeight + q.vectorWeight - 1) ≤ 1/100)
    (hl1 : 1 ≤ q.limit) (hl2 : q.limit ≤ 50) :
    hybrid_search store false false q =
      .ok (combineHybrid
        (text_search_core store ⟨vq, q.limit * 2, 0, none, none, none, true, true⟩
          vq 0 (q.limit * 2))
        (vector_search_core store vq (1/2) (q.limit * 2) none)
        q.textWeight q.vectorWeight q.limit vq) := by
  rw [hybrid_prelude store q vq none false false hq (by rw [haf]; rfl)
    htw0 htw1 hvw0 hvw1 hsum]
  have hcast : ((q.limit : Int) * 2) = ((q.limit * 2 : Nat) : Int) := by push_cast; ring
  rw [hcast, mkSearchQuery_okI vq ((q.limit * 2 : Nat) : Int) none true true
    (by push_cast; omega) (by push_cast; omega)]
  dsimp only [Int.toNat_natCast]
  have ht := text_search_ok_af store ⟨vq, q.limit * 2, 0, none, none, none, true, true⟩
    vq none hqi rfl (by dsimp only; omega) (by dsimp only; omega)
  dsimp only at ht
  simp only [Bind.bind, Except.bind]
  rw [ht]
  simp only []
  rw [mkVectorSearchQuery_okI vq (1/2) ((q.limit * 2 : Nat) : Int) none
    (by norm_num) (by norm_num) (by push_cast; omega) (by push_cast; omega)]
  simp only [Int.toNat_natCast]
  have hv := vector_search_ok store ⟨vq, 1/2, q.limit * 2, none⟩ vq none hqi hqi
    rfl rfl (by norm_num) (by norm_num) (by dsimp only; omega) (by dsimp only; omega)
  dsimp only at hv
  rw [hv]
  rfl

lemma hybrid_search_fail_text (store : Store) (q : HybridSearchQuery) (vq : PyStr)
    (vecFail : Bool)
    (hq : validate_search_query q.query = .ok vq)
    (hqi : validate_search_query vq = .ok vq)
    (haf : q.assistantFilter = none)
    (htw0 : 0 ≤ q.textWeight) (htw1 : q.textWeight ≤ 1)
    (hvw0 : 0 ≤ q.vectorWeight) (hvw1 : q.vectorWeight ≤ 1)
    (hsum : ratAbs (q.textWeight + q.vectorWeight - 1) ≤ 1/100)
    (hl1 : 1 ≤ q.limit) (hl2 : q.limit ≤ 50) :
    hybrid_search store true vecFail q =
      .error (.externalService "search_engine" "Hybrid search operation failed") := by
  rw [hybrid_prelude store q vq none true vecFail hq (by rw [haf]; rfl)
    htw0 htw1 hvw0 hvw1 hsum]
  have hcast : ((q.limit : Int) * 2) = ((q.limit * 2 : Nat) : Int) := by push_cast; ring
  rw [hcast, mkSearchQuery_okI vq ((q.limit * 2 : Nat) : Int) none true true
    (by push_cast; omega) (by push_cast; omega)]
  simp only [Int.toNat_natCast, Bind.bind, Except.bind]
  have ht := text_search_fail store ⟨vq, q.limit * 2, 0, none, none, none, true, true⟩
    vq none hqi rfl (by dsimp only; omega) (by dsimp only; omega)
  rw [ht]

lemma hybrid_search_fail_vec (store : Store) (q : HybridSearchQuery) (vq : PyStr)
    (hq : validate_search_query q.query = .ok vq)
    (hqi : validate_search_query vq = .ok vq)
    (haf : q.assistantFilter = none)
    (htw0 : 0 ≤ q.textWeight) (htw1 : q.textWeight ≤ 1)
    (hvw0 : 0 ≤ q.vectorWeight) (hvw1 : q.vectorWeight ≤ 1)
    (hsum : ratAbs (q.textWeight + q.vectorWeight - 1) ≤ 1/100)
    (hl1 : 1 ≤ q.limit) (hl2 : q.limit ≤ 50) :
    hybrid_search store false true q =
      .error (.externalService "search_engine" "Hybrid search operation failed") := by
  rw [hybrid_prelude store q vq none false true hq (by rw [haf]; rfl)
    htw0 htw1 hvw0 hvw1 hsum]
  have hcast : ((q.limit : Int) * 2) = ((q.limit * 2 : Nat) : Int) := by push_cast; ring
  rw [hcast, mkSearchQuery_okI vq ((q.limit * 2 : Nat) : Int) none true true
    (by push_cast; omega) (by push_cast; omega)]
  simp only [Int.toNat_natCast, Bind.bind, Except.bind]
  have ht := text_search_ok_af store ⟨vq, q.limit * 2, 0, none, none, none, true, true⟩
    vq none hqi rfl (by dsimp only; omega) (by dsimp only; omega)
  dsimp only at ht
  rw [ht]
  simp only []
  rw [mkVectorSearchQuery_okI vq (1/2) ((q.limit * 2 : Nat) : Int) none
    (by norm_num) (by norm_num) (by push_cast; omega) (by push_cast; omega)]
  simp only [Int.toNat_natCast]
  have hv := vector_search_fail store ⟨vq, 1/2, q.limit * 2, none⟩ vq none hqi hqi
    rfl rfl (by norm_num) (by norm_num) (by dsimp only; omega) (by dsimp only; omega)
  rw [hv]

lemma validate_appleStr : validate_search_query appleStr = .ok appleStr := by decide

end MHE

namespace MHE

/-! ### Claim theorems: pipeline pagination (C1) and request handling
(C4, C5, C9, C10) -/

/-- C1: the claim states that one run of `process_embedding_pipeline` leaves
no item without an `EmbeddingRecord` for the model.  The code violates this:
the streaming generators advance `offset += batch_size` while the upserts of
the already-processed items shrink the anti-join result set, so the next
pull skips items.  On a store with two unembedded messages and
`batch_size = 1`, the run processes exactly one message (stats `(1, 0)`) and
returns with `"m2"` still unembedded. -/
theorem C1_pipeline_skips_unembedded :
    (process_embedding_pipeline (fun _ => [(1:ℚ)]) "model-a" 2 1 pipeStoreC1 []).2 = (1, 0) ∧
    hasEmbeddingFor (pipelineRecs (fun _ => [(1:ℚ)]) "model-a" 2 1 pipeStoreC1 [])
      "message" (pstr "m2") "model-a" = false ∧
    pipeStoreC1.messages.map Message.id = [pstr "m1", pstr "m2"] :=
  ⟨by decide, by decide, by decide⟩

/-- C4 (counterexample): the hybrid retriever does not accept every
non-negative weight pair — the pair `(0.5, 0.2)`, both in `[0,1]`, is
rejected with a `ValidationError` because the weights do not sum to 1 within
the 0.01 tolerance, contradicting the claim that the request runs and fuses
with the weights as given. -/
theorem C4_counterexample :
    hybrid_search emptyStore false false ⟨appleStr, 1/2, 1/5, 10, none⟩ =
      .error (.validation "text_weight and vector_weight should sum to 1.0") := by
  norm_num [hybrid_search, validate_appleStr, validate_float, ratAbs]

/-- C4 (amended): `hybrid_search` accepts a weight pair iff each weight lies
in `[0,1]` (pydantic bound, assumed here) and `|tw + vw - 1| ≤ 0.01`; an
accepted pair is passed to the fusion step exactly as given (no
renormalization), and a pair outside the tolerance is rejected with a
`ValidationError`. -/
theorem C4_weights_tolerance (store : Store) (q : HybridSearchQuery) (vq : PyStr)
    (hq : validate_search_query q.query = .ok vq)
    (hqi : validate_search_query vq = .ok vq)
    (haf : q.assistantFilter = none)
    (htw0 : 0 ≤ q.textWeight) (htw1 : q.textWeight ≤ 1)
    (hvw0 : 0 ≤ q.vectorWeight) (hvw1 : q.vectorWeight ≤ 1)
    (hl1 : 1 ≤ q.limit) (hl2 : q.limit ≤ 50) :
    (ratAbs (q.textWeight + q.vectorWeight - 1) ≤ 1/100 →
      hybrid_search store false false q =
        .ok (combineHybrid
          (text_search_core store ⟨vq, q.limit * 2, 0, none, none, none, true, true⟩
            vq 0 (q.limit * 2))
          (vector_search_core store vq (1/2) (q.limit * 2) none)
          q.textWeight q.vectorWeight q.limit vq)) ∧
    (1/100 < ratAbs (q.textWeight + q.vectorWeight - 1) →
      hybrid_search store false false q =
        .error (.validation "text_weight and vector_weight should sum to 1.0")) := by
  constructor
  · intro hsum
    exact hybrid_search_ok store q vq hq hqi haf htw0 htw1 hvw0 hvw1 hsum hl1 hl2
  · intro hsum
    unfold hybrid_search
    rw [hq, validate_float_ok _ _ _ htw0 htw1, validate_float_ok _ _ _ hvw0 hvw1]
    dsimp only
    rw [if_pos hsum]

/-- C4 (witness): the tolerance branch of `C4_weights_tolerance` at the
default weights `(0.3, 0.7)`. -/
theorem C4_witness :
    hybrid_search emptyStore false false ⟨appleStr, 3/10, 7/10, 10, none⟩ =
      .ok (combineHybrid
        (text_search_core emptyStore ⟨appleStr, 20, 0, none, none, none, true, true⟩
          appleStr 0 20)
        (vector_search_core emptyStore appleStr (1/2) 20 none)
        (3/10) (7/10) 10 appleStr) :=
  (C4_weights_tolerance emptyStore ⟨appleStr, 3/10, 7/10, 10, none⟩ appleStr
    (by decide) (by decide) rfl (by norm_num) (by norm_num) (by norm_num)
    (by norm_num) (by decide) (by decide)).1 (by norm_num [ratAbs])

/-- C5 (counterexample): a hybrid search request with `k = 101` is rejected
at pydantic parsing (`limit ∈ [1,100]`) with a validation error — it is not
clamped to 100 and served, contradicting the claim. -/
theorem C5_counterexample :
    mkHybridSearchQuery appleStr (3/10) (7/10) 101 none =
      .error (.validation "limit out of range") := by
  norm_num [mkHybridSearchQuery]

/-- C5 (amended): a request whose `k` lies outside `[1,100]` is rejected with
a validation error rather than clamped, and the empty query string is also
rejected before either ranking runs. -/
theorem C5_out_of_range_rejected (query : PyStr) (tw vw : ℚ) (limit : Int)
    (af : Option (List PyStr)) (h : limit < 1 ∨ 100 < limit) :
    isError (mkHybridSearchQuery query tw vw limit af) = true ∧
    isError (validate_search_query []) = true := by
  refine ⟨?_, by decide⟩
  unfold mkHybridSearchQuery
  repeat' split
  all_goals first | rfl | omega

/-- C5 (witness): `C5_out_of_range_rejected` at `k = 101`. -/
theorem C5_witness :
    isError (mkHybridSearchQuery appleStr (3/10) (7/10) 101 none) = true ∧
    isError (validate_search_query []) = true :=
  C5_out_of_range_rejected appleStr (3/10) (7/10) 101 none (Or.inr (by decide))

/-- C9 (counterexample): on a valid request, a raised lexical sub-query
(`textFail = true`, vector path alive) fails the whole hybrid request with
`ExternalServiceError("search_engine")` instead of returning vector-only
results, and a raised vector sub-query likewise fails the whole request
instead of returning lexical-only results. -/
theorem C9_counterexample :
    hybrid_search emptyStore true false ⟨appleStr, 3/10, 7/10, 10, none⟩ =
      .error (.externalService "search_engine" "Hybrid search operation failed") ∧
    hybrid_search emptyStore false true ⟨appleStr, 3/10, 7/10, 10, none⟩ =
      .error (.externalService "search_engine" "Hybrid search operation failed") :=
  ⟨hybrid_search_fail_text emptyStore ⟨appleStr, 3/10, 7/10, 10, none⟩ appleStr false
    (by decide) (by decide) rfl (by norm_num) (by norm_num) (by norm_num) (by norm_num)
    (by norm_num [ratAbs]) (by decide) (by decide),
   hybrid_search_fail_vec emptyStore ⟨appleStr, 3/10, 7/10, 10, none⟩ appleStr
    (by decide) (by decide) rfl (by norm_num) (by norm_num) (by norm_num) (by norm_num)
    (by norm_num [ratAbs]) (by decide) (by decide)⟩

/-- C9 (amended): there is no per-path degradation: a valid hybrid request
raises iff either sub-path raises — it succeeds exactly when both the text
pass and the vector pass succeed, and any single failure fails the whole
request. -/
theorem C9_no_partial_degradation (store : Store) (q : HybridSearchQuery) (vq : PyStr)
    (textFail vecFail : Bool)
    (hq : validate_search_query q.query = .ok vq)
    (hqi : validate_search_query vq = .ok vq)
    (haf : q.assistantFilter = none)
    (htw0 : 0 ≤ q.textWeight) (htw1 : q.textWeight ≤ 1)
    (hvw0 : 0 ≤ q.vectorWeight) (hvw1 : q.vectorWeight ≤ 1)
    (hsum : ratAbs (q.textWeight + q.vectorWeight - 1) ≤ 1/100)
    (hl1 : 1 ≤ q.limit) (hl2 : q.limit ≤ 50) :
    isError (hybrid_search store textFail vecFail q) = (textFail || vecFail) := by
  cases textFail with
  | false =>
    cases vecFail with
    | false =>
      rw [hybrid_search_ok store q vq hq hqi haf htw0 htw1 hvw0 hvw1 hsum hl1 hl2]
      rfl
    | true =>
      rw [hybrid_search_fail_vec store q vq hq hqi haf htw0 htw1 hvw0 hvw1 hsum hl1 hl2]
      rfl
  | true =>
    rw [hybrid_search_fail_text store q vq vecFail hq hqi haf htw0 htw1 hvw0 hvw1 hsum hl1 hl2]
    rfl

/-- C9 (witness): `C9_no_partial_degradation` with the lexical path raising. -/
theorem C9_witness :
    isError (hybrid_search emptyStore true false ⟨appleStr, 3/10, 7/10, 10, none⟩) =
      (true || false) :=
  C9_no_partial_degradation emptyStore ⟨appleStr, 3/10, 7/10, 10, none⟩ appleStr true false
    (by decide) (by decide) rfl (by norm_num) (by norm_num) (by norm_num) (by norm_num)
    (by norm_num [ratAbs]) (by decide) (by decide)

/-- C10: `vector_search` consults no embedding — on a working database, a
valid vector request returns exactly the `text_search` response on the
validated query and filters, restricted to the results whose score reaches
`similarity_threshold`, with `search_type = "vector_fallback"`
(`vector_fallback_spec` states that refinement target). -/
theorem C10_vector_is_filtered_text (store : Store) (q : VectorSearchQuery)
    (vq : PyStr) (af : Option (List PyStr))
    (hq : validate_search_query q.query = .ok vq)
    (hqi : validate_search_query vq = .ok vq)
    (haf : validate_assistant_filter q.assistantFilter = .ok af)
    (hafi : validate_assistant_filter af = .ok af)
    (ht0 : 0 ≤ q.similarityThreshold) (ht1 : q.similarityThreshold ≤ 1)
    (hl1 : 1 ≤ q.limit) (hl2 : q.limit ≤ 100) :
    vector_search store false q = vector_fallback_spec store q vq af := by
  unfold vector_fallback_spec
  rw [vector_search_ok store q vq af hq hqi haf hafi ht0 ht1 hl1 hl2]
  rw [text_search_ok_af store ⟨vq, q.limit, 0, af, none, none, true, true⟩ vq af hqi hafi
    (by dsimp only; omega) (by dsimp only; omega)]
  rfl

/-- C10 (witness): `C10_vector_is_filtered_text` on a one-message store with
threshold 0.5. -/
theorem C10_witness :
    vector_search storeC6 false ⟨appleStr, 1/2, 20, none⟩ =
      vector_fallback_spec storeC6 ⟨appleStr, 1/2, 20, none⟩ appleStr none :=
  C10_vector_is_filtered_text storeC6 ⟨appleStr, 1/2, 20, none⟩ appleStr none
    (by decide) (by decide) rfl rfl (by norm_num) (by norm_num) (by decide) (by decide)

end MHE

namespace MHE

/-! ### Claim C6: lexical score normalization -/

lemma tfScore_nonneg (terms : List PyStr) (content : PyStr) : 0 ≤ tfScore terms content := by
  unfold tfScore
  refine le_min (by positivity) (by norm_num)

lemma tfScore_le_one (terms : List PyStr) (content : PyStr) : tfScore terms content ≤ 1 :=
  min_le_right _ _

lemma mem_insertDescByScore (x r : SearchResult) (l : List SearchResult) :
    x ∈ insertDescByScore r l ↔ x = r ∨ x ∈ l := by
  induction l with
  | nil => simp [insertDescByScore]
  | cons a t ih =>
    unfold insertDescByScore
    split
    · simp
    · simp only [List.mem_cons, ih]
      tauto

lemma mem_sortByScoreDesc (x : SearchResult) (l : List SearchResult) :
    x ∈ sortByScoreDesc l ↔ x ∈ l := by
  induction l with
  | nil => simp [sortByScoreDesc]
  | cons a t ih =>
    show x ∈ insertDescByScore a (sortByScoreDesc t) ↔ _
    rw [mem_insertDescByScore]
    simp [ih]

lemma validate_appleL :
    validate_search_query [97, 112, 112, 108, 101] = .ok [97, 112, 112, 108, 101] := by decide

lemma terms_appleL :
    searchTerms [97, 112, 112, 108, 101] = [[97, 112, 112, 108, 101]] := by decide

/-- C6 (counterexample): lexical scores are not normalized by the maximum
rank of the result set.  On a store whose single message content is exactly
the query `"apple"`, the top (and only) lexical hit has score
`min(1/1/10, 1) = 0.1`, not 1 — refuting "the top lexical hit always has
normalized score 1". -/
theorem C6_counterexample :
    (text_search storeC6 false ⟨appleStr, 20, 0, none, none, none, true, true⟩).map
      (fun resp => resp.results.map (fun r => r.score)) = .ok [1/10] ∧ ((1:ℚ)/10 ≠ 1) := by
  constructor
  · norm_num [text_search, validate_appleL, terms_appleL, validate_pagination,
      validate_integer, validate_assistant_filter, text_search_core, messageRows,
      threadOf, assistantOf, filteredMessageRows, matchesAllTerms, termCondition,
      containsSub, countOcc, countOccGo, listStartsWith, pyLower, lowerChar, tfScore,
      truncate500, messageBlock, messageResult, artifactsOf, artifactResult, cardRows,
      filteredCardRows, cardMatchesAllTerms, cardTermCondition, cardResult,
      sortByScoreDesc, insertDescByScore, storeC6, appleStr, List.filter, List.filterMap,
      List.find?, List.foldr, List.take, List.drop, List.flatten, List.any, List.all,
      List.cons_ne_nil, countOcc.eq_def, Except.map]
  · norm_num

/-- C6 (amended): each lexical (message or artifact) hit's score is the
capped term-frequency value `min(Σ count / len(terms) / 10, 1)`, which lies
in `[0,1]`; no division by the maximum rank takes place and the top hit's
score need not be 1 (an empty result set trivially yields no lexical
candidates). -/
theorem C6_scores_capped (store : Store) (sq : SearchQuery)
    (vq : PyStr) (offset limit : Nat) (r : SearchResult)
    (hr : r ∈ (text_search_core store sq vq offset limit).results)
    (hty : r.type = pstr "message" ∨ r.type = pstr "artifact") :
    0 ≤ r.score ∧ r.score ≤ 1 := by
  unfold text_search_core at hr
  dsimp only at hr
  have h1 := List.mem_of_mem_take hr
  rw [mem_sortByScoreDesc] at h1
  rcases List.mem_append.mp h1 with hm | hc
  · obtain ⟨blk, hblk, hrb⟩ := List.mem_flatten.mp hm
    obtain ⟨row, hrow, rfl⟩ := List.mem_map.mp hblk
    unfold messageBlock at hrb
    rcases List.mem_cons.mp hrb with rfl | hra
    · exact ⟨tfScore_nonneg _ _, tfScore_le_one _ _⟩
    · rcases hia : sq.includeArtifacts with hfalse | htrue
      · rw [hia] at hra
        simp at hra
      · rw [hia] at hra
        simp only [if_true] at hra
        obtain ⟨ar, har, rfl⟩ := List.mem_map.mp hra
        exact ⟨tfScore_nonneg _ _, tfScore_le_one _ _⟩
  · rcases him : sq.includeMemoryCards with hfalse | htrue
    · rw [him] at hc
      simp at hc
    · rw [him] at hc
      simp only [if_true] at hc
      obtain ⟨row, hrow, rfl⟩ := List.mem_map.mp hc
      exfalso
      simp only [cardResult] at hty
      rcases hty with hty | hty
      · exact absurd hty (by decide)
      · exact absurd hty (by decide)

/-- C6 (witness): `C6_scores_capped` at the one message result of
`storeC6`. -/
theorem C6_witness :
    0 ≤ ({ id := [120], type := pstr "message", content := appleStr, title := none,
           score := 1/10, timestamp := 0, assistantName := [97, 108, 105, 99, 101],
           threadTitle := [116] } : SearchResult).score ∧
    ({ id := [120], type := pstr "message", content := appleStr, title := none,
       score := 1/10, timestamp := 0, assistantName := [97, 108, 105, 99, 101],
       threadTitle := [116] } : SearchResult).score ≤ 1 :=
  C6_scores_capped storeC6 ⟨appleStr, 20, 0, none, none, none, true, true⟩ appleStr 0 20
    _ (by norm_num [text_search_core, messageRows, threadOf, assistantOf,
        filteredMessageRows, matchesAllTerms, termCondition, containsSub, countOcc,
        countOccGo, listStartsWith, pyLower, lowerChar, tfScore, truncate500,
        messageBlock, messageResult, artifactsOf, artifactResult, cardRows,
        filteredCardRows, cardMatchesAllTerms, cardTermCondition, cardResult,
        sortByScoreDesc, insertDescByScore, storeC6, appleStr, terms_appleL,
        List.filter, List.filterMap, List.find?, List.foldr, List.take, List.drop,
        List.flatten, List.any, List.all, List.cons_ne_nil, countOcc.eq_def])
    (Or.inl rfl)

end MHE

namespace MHE

/-! ### Claim C3: the RAG token budget -/

lemma ragLoop_budget (store : Store) (terms : List PyStr) (ictx : Bool) (budget : Nat) :
    ∀ (rows : List (Message × Thread × Assistant)) (total : Nat), total ≤ budget →
      (ragLoop store terms ictx budget rows total).2 ≤ budget ∧
      (ragLoop store terms ictx budget rows total).2 =
        total + (((ragLoop store terms ictx budget rows total).1.map
          (fun c => c.content.length / 4)).sum) := by
  intro rows
  induction rows with
  | nil =>
    intro total h
    exact ⟨h, by simp [ragLoop]⟩
  | cons row rest ih =>
    intro total h
    unfold ragLoop
    dsimp only
    split
    · exact ⟨h, by simp⟩
    · rename_i hle
      rw [not_lt] at hle
      obtain ⟨ha, hb⟩ := ih (total + (ragContextContent store row.1 ictx).length / 4) hle
      refine ⟨ha, ?_⟩
      simp only [List.map_cons, List.sum_cons]
      omega

lemma validate_integer_inv (x : Int) (lo hi : Option Int) (y : Int)
    (h : validate_integer x lo hi = .ok y) : y = x := by
  unfold validate_integer at h
  split at h
  · exact Except.noConfusion h
  · split at h
    · exact Except.noConfusion h
    · injection h with h
      exact h.symm

/-- C3: every assembled RAG context respects the caller's token budget: for
any store and request, whenever `rag_query` returns a response, its
`total_context_tokens` is at most `max_context_tokens`, and it equals the
sum of the whole-block `len(content) // 4` estimates of the included
contexts — a block whose estimate would exceed the remaining budget is
never partially included (the loop stops before it). -/
theorem C3_budget_respected (store : Store) (dbFail : Bool) (q : RAGQuery)
    (resp : RAGResponse) (h : rag_query store dbFail q = .ok resp) :
    resp.totalContextTokens ≤ q.maxContextTokens ∧
    resp.totalContextTokens =
      ((resp.contexts.map (fun c => c.content.length / 4)).sum) := by
  unfold rag_query at h
  split at h
  · exact Except.noConfusion h
  · rename_i vq hvq
    split at h
    · exact Except.noConfusion h
    · rename_i maxTok hmaxTok
      split at h
      · exact Except.noConfusion h
      · rename_i maxRes hmaxRes
        split at h
        · exact Except.noConfusion h
        · split at h
          · exact Except.noConfusion h
          · rename_i af haf
            split at h
            · exact Except.noConfusion h
            · have hM := validate_integer_inv _ _ _ _ hmaxTok
              subst hM
              injection h with h
              subst h
              dsimp only
              have := ragLoop_budget store (searchTerms vq) q.includeConversationContext
                ((q.maxContextTokens : Int)).toNat
                ((ragMessageRows store (searchTerms vq) af).take maxRes.toNat) 0
                (Nat.zero_le _)
              rw [Int.toNat_natCast] at this
              exact ⟨this.1, by simpa using this.2⟩

/-- C3 (witness): on `storeC6`, `rag_query` with a 500-token budget returns
one context of estimate 1 token; the budget is respected and the total is
the sum of the included whole-block estimates. -/
theorem C3_witness :
    ragRespC3.totalContextTokens ≤ ragQueryC3.maxContextTokens ∧
    ragRespC3.totalContextTokens =
      ((ragRespC3.contexts.map (fun c => c.content.length / 4)).sum) :=
  C3_budget_respected storeC6 false ragQueryC3 ragRespC3 rfl

/-! ### Claim C8: chronological neighbour expansion -/

/-- C8: neighbour expansion is chronologically correct: for three messages
of one thread at timestamps `t1 < t2 < t3`, expanding the middle message
fetches the `t1` message as predecessor and the `t3` message as successor;
the `t1` message has no predecessor and the `t3` message no successor (a
missing neighbour yields `none`, and `ragContextContent` simply omits the
corresponding part, never substituting another message). -/
theorem C8_neighbors (m1 m2 m3 : Message)
    (ht12 : m1.threadId = m2.threadId) (ht23 : m2.threadId = m3.threadId)
    (h12 : m1.timestamp < m2.timestamp) (h23 : m2.timestamp < m3.timestamp) :
    prevMessageOf ⟨[], [], [m1, m2, m3], [], []⟩ m2 = some m1 ∧
    nextMessageOf ⟨[], [], [m1, m2, m3], [], []⟩ m2 = some m3 ∧
    prevMessageOf ⟨[], [], [m1, m2, m3], [], []⟩ m1 = none ∧
    nextMessageOf ⟨[], [], [m1, m2, m3], [], []⟩ m3 = none := by
  have d12 : decide (m1.timestamp < m2.timestamp) = true := decide_eq_true h12
  have d23 : decide (m2.timestamp < m3.timestamp) = true := decide_eq_true h23
  have d11 : decide (m1.timestamp < m1.timestamp) = false :=
    decide_eq_false (lt_irrefl _)
  have d22 : decide (m2.timestamp < m2.timestamp) = false :=
    decide_eq_false (lt_irrefl _)
  have d33 : decide (m3.timestamp < m3.timestamp) = false :=
    decide_eq_false (lt_irrefl _)
  have d21 : decide (m2.timestamp < m1.timestamp) = false :=
    decide_eq_false (not_lt.mpr (le_of_lt h12))
  have d32 : decide (m3.timestamp < m2.timestamp) = false :=
    decide_eq_false (not_lt.mpr (le_of_lt h23))
  have d31 : decide (m3.timestamp < m1.timestamp) = false :=
    decide_eq_false (not_lt.mpr (le_of_lt (h12.trans h23)))
  refine ⟨?_, ?_, ?_, ?_⟩
  · simp [prevMessageOf, ht12, ht23, d12, d22, d32, List.filter, List.foldl]
  · simp [nextMessageOf, ht12, ht23, d21, d22, d23, List.filter, List.foldl]
  · simp [prevMessageOf, ht12, ht23, d11, d21, d31, List.filter, List.foldl]
  · simp [nextMessageOf, ht12, ht23, d31, d32, d33, List.filter, List.foldl]

/-- C8 (witness): `C8_neighbors` at three concrete messages of thread
`"t1"` with timestamps 0 < 5 < 9. -/
theorem C8_witness :
    prevMessageOf ⟨[], [], [msgT1, msgT2, msgT3], [], []⟩ msgT2 = some msgT1 ∧
    nextMessageOf ⟨[], [], [msgT1, msgT2, msgT3], [], []⟩ msgT2 = some msgT3 ∧
    prevMessageOf ⟨[], [], [msgT1, msgT2, msgT3], [], []⟩ msgT1 = none ∧
    nextMessageOf ⟨[], [], [msgT1, msgT2, msgT3], [], []⟩ msgT3 = none :=
  C8_neighbors msgT1 msgT2 msgT3 rfl rfl (by decide) (by decide)

end MHE

namespace MHE

lemma sameKey_iff (a b : Embedding) : sameKey a b = true ↔ embKey a = embKey b := by
  unfold sameKey embKey
  simp only [Bool.and_eq_true, beq_iff_eq, Prod.mk.injEq]
  tauto

lemma embKey_update (x : Embedding) (v : List ℚ) :
    embKey { x with vector := v } = embKey x := rfl

lemma upsertOne_keys (recs : List Embedding) (r : Embedding) :
    (upsertOne recs r).map embKey =
      if recs.any (fun x => sameKey x r) then recs.map embKey
      else recs.map embKey ++ [embKey r] := by
  unfold upsertOne
  split
  · rename_i hany
    rw [List.map_map]
    apply List.map_congr_left
    intro x _
    by_cases hx : sameKey x r
    · simp [Function.comp, hx, embKey_update]
    · simp [Function.comp, hx]
  · rename_i hany
    rw [List.map_append]
    rfl

lemma NoDupKeys_upsertOne (recs : List Embedding) (r : Embedding)
    (h : NoDupKeys recs) : NoDupKeys (upsertOne recs r) := by
  unfold NoDupKeys at h ⊢
  rw [upsertOne_keys]
  split
  · exact h
  · rename_i hany
    rw [List.nodup_append]
    refine ⟨h, List.nodup_singleton _, ?_⟩
    intro k hk hk1
    simp only [List.mem_singleton] at hk1
    subst hk1
    obtain ⟨x, hx, hkey⟩ := List.mem_map.mp hk
    exact hany (List.any_eq_true.mpr ⟨x, hx, (sameKey_iff x r).mpr hkey⟩)

lemma NoDupKeys_bulk (results recs : List Embedding) (h : NoDupKeys recs) :
    NoDupKeys (bulk_upsert_embeddings recs results) := by
  induction results generalizing recs with
  | nil => exact h
  | cons a t ih => exact ih (upsertOne recs a) (NoDupKeys_upsertOne recs a h)

lemma NoDupKeys_streamLoop (embedF : PyStr → List ℚ) (model : String) (dim : Nat)
    (kind : String) (items : List (PyStr × PyStr)) (batchSize : Nat) :
    ∀ (fuel offset : Nat) (recs : List Embedding), NoDupKeys recs →
      NoDupKeys (streamLoop embedF model dim kind items batchSize fuel offset recs).1 := by
  intro fuel
  induction fuel with
  | zero => intro offset recs h; exact h
  | succ n ih =>
    intro offset recs h
    unfold streamLoop
    dsimp only
    split
    · exact h
    · exact ih (offset + batchSize) _ (NoDupKeys_bulk _ recs h)

lemma NoDupKeys_pipeline (embedF : PyStr → List ℚ) (model : String)
    (dim batchSize : Nat) (store : Store) (recs : List Embedding)
    (h : NoDupKeys recs) :
    NoDupKeys (pipelineRecs embedF model dim batchSize store recs) := by
  unfold pipelineRecs process_embedding_pipeline processStream
  dsimp only
  apply NoDupKeys_streamLoop
  apply NoDupKeys_streamLoop
  exact h

end MHE

namespace MHE

lemma find?_map_invariant {α : Type} (l : List α) (f : α → α) (p : α → Bool)
    (hp : ∀ x, p (f x) = p x) (hf : ∀ x, p x = true → f x = x) :
    (l.map f).find? p = l.find? p := by
  induction l with
  | nil => rfl
  | cons a t ih =>
    simp only [List.map_cons]
    cases hpa : p a with
    | false =>
      rw [List.find?_cons_of_neg _ (by simp [hp, hpa]),
        List.find?_cons_of_neg _ (by simp [hpa])]
      exact ih
    | true =>
      rw [List.find?_cons_of_pos _ (by simp [hp, hpa]),
        List.find?_cons_of_pos _ hpa, hf a hpa]

lemma hasEmbeddingFor_isSome (recs : List Embedding) (kind : String) (tid : PyStr)
    (model : String) :
    hasEmbeddingFor recs kind tid model =
      (findRec recs kind tid model).isSome := by
  unfold hasEmbeddingFor findRec
  induction recs with
  | nil => rfl
  | cons a t ih =>
    cases hpa : (a.targetKind == kind && a.targetId == tid && a.model == model) with
    | false =>
      rw [List.any_cons, hpa, List.find?_cons_of_neg _ (by simp [hpa])]
      simpa using ih
    | true =>
      rw [List.any_cons, hpa, List.find?_cons_of_pos t hpa]
      rfl

end MHE

namespace MHE

lemma findRec_upsertOne (recs : List Embedding) (r : Embedding) (kind : String)
    (tid : PyStr) (model : String)
    (hne : (r.targetKind == kind && r.targetId == tid && r.model == model) = false) :
    findRec (upsertOne recs r) kind tid model = findRec recs kind tid model := by
  unfold findRec upsertOne
  split
  · apply find?_map_invariant
    · intro x
      by_cases hx : sameKey x r = true
      · simp [hx]
      · have hx0 : sameKey x r = false := by
          cases hsk : sameKey x r
          · rfl
          · exact absurd hsk hx
        simp [hx0]
    · intro x hpx
      by_cases hx : sameKey x r = true
      · exfalso
        simp only [sameKey, Bool.and_eq_true, beq_iff_eq] at hx hpx
        obtain ⟨⟨hk1, ht1⟩, hm1⟩ := hx
        obtain ⟨⟨hk2, ht2⟩, hm2⟩ := hpx
        rw [hk1] at hk2
        rw [ht1] at ht2
        rw [hm1] at hm2
        simp [hk2, ht2, hm2] at hne
      · simp [hx]
  · rw [List.find?_append]
    have : [r].find? (fun x => x.targetKind == kind && x.targetId == tid && x.model == model) = none := by
      simp [List.find?, hne]
    rw [this]
    cases recs.find? (fun x => x.targetKind == kind && x.targetId == tid && x.model == model) <;> rfl

lemma findRec_bulk (results : List Embedding) :
    ∀ (recs : List Embedding) (kind : String) (tid : PyStr) (model : String),
    (∀ r ∈ results, (r.targetKind == kind && r.targetId == tid && r.model == model) = false) →
    findRec (bulk_upsert_embeddings recs results) kind tid model
      = findRec recs kind tid model := by
  induction results with
  | nil => intro recs kind tid model _; rfl
  | cons a t ih =>
    intro recs kind tid model h
    have hstep : bulk_upsert_embeddings recs (a :: t)
        = bulk_upsert_embeddings (upsertOne recs a) t := rfl
    rw [hstep, ih (upsertOne recs a) kind tid model
      (fun r hr => h r (List.mem_cons_of_mem a hr))]
    exact findRec_upsertOne recs a kind tid model (h a (List.mem_cons_self a t))

lemma pullBatch_unembedded (items : List (PyStr × PyStr)) (kind model : String)
    (recs : List Embedding) (batchSize offset : Nat) (it : PyStr × PyStr)
    (h : it ∈ pullBatch items kind model recs batchSize offset) :
    hasEmbeddingFor recs kind it.1 model = false := by
  unfold pullBatch at h
  have h1 := List.mem_of_mem_take h
  have h2 := List.mem_of_mem_drop h1
  unfold unembedded at h2
  have h3 := (List.mem_filter.mp h2).2
  simpa using h3

lemma findRec_streamLoop (embedF : PyStr → List ℚ) (model : String) (dim : Nat)
    (kind' : String) (items : List (PyStr × PyStr)) (batchSize : Nat) :
    ∀ (fuel offset : Nat) (recs : List Embedding) (kind : String) (tid : PyStr)
      (m : String), hasEmbeddingFor recs kind tid m = true →
    findRec (streamLoop embedF model dim kind' items batchSize fuel offset recs).1 kind tid m
      = findRec recs kind tid m := by
  intro fuel
  induction fuel with
  | zero => intro offset recs kind tid m _; rfl
  | succ n ih =>
    intro offset recs kind tid m h
    unfold streamLoop
    dsimp only
    split
    · rfl
    · have hkey : ∀ r ∈ embedJobResults embedF model dim kind'
          (pullBatch items kind' model recs batchSize offset),
          (r.targetKind == kind && r.targetId == tid && r.model == m) = false := by
        intro r hr
        unfold embedJobResults at hr
        obtain ⟨it, hit, hreq⟩ := List.mem_map.mp hr
        subst hreq
        dsimp only
        have hun := pullBatch_unembedded items kind' model recs batchSize offset it hit
        by_contra hcon
        rw [Bool.not_eq_false, Bool.and_eq_true, Bool.and_eq_true] at hcon
        obtain ⟨⟨hk, ht⟩, hm⟩ := hcon
        rw [beq_iff_eq] at hk ht hm
        rw [hk, ht, hm] at hun
        rw [h] at hun
        exact Bool.true_eq_false.mp hun
      have hfr := findRec_bulk _ recs kind tid m hkey
      have hemb : hasEmbeddingFor (bulk_upsert_embeddings recs
          (embedJobResults embedF model dim kind'
            (pullBatch items kind' model recs batchSize offset))) kind tid m = true := by
        rw [hasEmbeddingFor_isSome, hfr, ← hasEmbeddingFor_isSome]
        exact h
      rw [ih (offset + batchSize) _ kind tid m hemb, hfr]

lemma findRec_pipeline (embedF : PyStr → List ℚ) (model : String)
    (dim batchSize : Nat) (store : Store) (recs : List Embedding)
    (kind : String) (tid : PyStr) (m : String)
    (h : hasEmbeddingFor recs kind tid m = true) :
    findRec (pipelineRecs embedF model dim batchSize store recs) kind tid m
      = findRec recs kind tid m := by
  unfold pipelineRecs process_embedding_pipeline processStream
  dsimp only
  have h1 := findRec_streamLoop embedF model dim "message" (msgItems store) batchSize
    ((msgItems store).length + 1) 0 recs kind tid m h
  have hemb1 : hasEmbeddingFor
      (streamLoop embedF model dim "message" (msgItems store) batchSize
        ((msgItems store).length + 1) 0 recs).1 kind tid m = true := by
    rw [hasEmbeddingFor_isSome, h1, ← hasEmbeddingFor_isSome]
    exact h
  rw [findRec_streamLoop embedF model dim "memory_card" (cardItems store) batchSize
    ((cardItems store).length + 1) 0 _ kind tid m hemb1, h1]

end MHE

namespace MHE

/-- C2: running the embedding pipeline twice over an unchanged store is
idempotent: after each run the record table has at most one row per
`(target_kind, target_id, model)` triple (so the `ON CONFLICT` upsert can
raise no duplicate-key error), and every triple embedded by the first run
keeps exactly the same row — same vector — after the second run, the
embedding client being a fixed function. -/
theorem C2_pipeline_idempotent (embedF : PyStr → List ℚ) (model : String)
    (dim batchSize : Nat) (store : Store) (kind : String) (tid : PyStr) (m : String)
    (h : hasEmbeddingFor (pipelineRecs embedF model dim batchSize store []) kind tid m
      = true) :
    NoDupKeys (pipelineRecs embedF model dim batchSize store []) ∧
    NoDupKeys (pipelineRecs embedF model dim batchSize store
      (pipelineRecs embedF model dim batchSize store [])) ∧
    findRec (pipelineRecs embedF model dim batchSize store
        (pipelineRecs embedF model dim batchSize store [])) kind tid m
      = findRec (pipelineRecs embedF model dim batchSize store []) kind tid m := by
  have h1 := NoDupKeys_pipeline embedF model dim batchSize store [] List.nodup_nil
  exact ⟨h1, NoDupKeys_pipeline embedF model dim batchSize store _ h1,
    findRec_pipeline embedF model dim batchSize store _ kind tid m h⟩

/-- The C2 theorem at a concrete input: the two-message store, a constant
embedding client, batch size 10 and the key of message `"m1"`. -/
theorem C2_witness :
    hasEmbeddingFor (pipelineRecs (fun _ => []) "m" 0 10 pipeStoreC1 [])
      "message" [109, 49] "m" = true ∧
    (NoDupKeys (pipelineRecs (fun _ => []) "m" 0 10 pipeStoreC1 []) ∧
     NoDupKeys (pipelineRecs (fun _ => []) "m" 0 10 pipeStoreC1
        (pipelineRecs (fun _ => []) "m" 0 10 pipeStoreC1 [])) ∧
     findRec (pipelineRecs (fun _ => []) "m" 0 10 pipeStoreC1
        (pipelineRecs (fun _ => []) "m" 0 10 pipeStoreC1 [])) "message" [109, 49] "m"
      = findRec (pipelineRecs (fun _ => []) "m" 0 10 pipeStoreC1 []) "message" [109, 49] "m") :=
  ⟨by decide,
   C2_pipeline_idempotent (fun _ => []) "m" 0 10 pipeStoreC1 "message" [109, 49] "m"
     (by decide)⟩

end MHE

namespace MHE

lemma bool_eq_false {b : Bool} (h : ¬ b = true) : b = false := by
  cases b
  · rfl
  · exact absurd rfl h

lemma dlookup_cons (p : PyStr × SearchResult) (t : List (PyStr × SearchResult))
    (k : PyStr) :
    dlookup (p :: t) k = if p.1 == k then some p.2 else dlookup t k := by
  unfold dlookup
  cases h : (p.1 == k) with
  | true =>
    rw [List.find?_cons_of_pos t h]
    simp
  | false =>
    rw [List.find?_cons_of_neg t (by simp [h])]
    simp

lemma dictSet_lookup (d : List (PyStr × SearchResult)) (k : PyStr) (v : SearchResult)
    (k' : PyStr) :
    dlookup (dictSet d k v) k' = if k' = k then some v else dlookup d k' := by
  induction d with
  | nil =>
    unfold dictSet
    by_cases h : k' = k
    · subst h; simp [dlookup_cons]
    · have hk : (k == k') = false := beq_eq_false_iff_ne.mpr (fun hc => h hc.symm)
      simp [dlookup_cons, h, hk]
  | cons p rest ih =>
    unfold dictSet
    by_cases hp : (p.1 == k) = true
    · rw [if_pos hp]
      by_cases h : k' = k
      · subst h
        simp [dlookup_cons]
      · have hk : (k == k') = false := beq_eq_false_iff_ne.mpr (fun hc => h hc.symm)
        have hp1 : (p.1 == k') = false := by
          rw [beq_iff_eq] at hp
          rw [hp]
          exact hk
        simp [dlookup_cons, h, hk, hp1]
    · rw [if_neg hp]
      have hp0 : (p.1 == k) = false := bool_eq_false hp
      by_cases hpk : (p.1 == k') = true
      · have h : ¬(k' = k) := by
          have hpk2 : p.1 = k' := by rw [← beq_iff_eq]; exact hpk
          intro hc
          rw [hpk2, hc] at hp0
          simp at hp0
        simp [dlookup_cons, ih, hpk, h]
      · simp [dlookup_cons, ih, bool_eq_false hpk]

lemma dictAddScore_lookup (d : List (PyStr × SearchResult)) (k : PyStr)
    (v : SearchResult) (k' : PyStr) :
    dlookup (dictAddScore d k v) k' =
      if k' = k then
        (match dlookup d k with
         | some w => some { w with score := w.score + v.score }
         | none => some v)
      else dlookup d k' := by
  induction d with
  | nil =>
    unfold dictAddScore
    by_cases h : k' = k
    · subst h; simp [dlookup_cons, dlookup]
    · have hk : (k == k') = false := beq_eq_false_iff_ne.mpr (fun hc => h hc.symm)
      simp [dlookup_cons, h, hk, dlookup]
  | cons p rest ih =>
    unfold dictAddScore
    by_cases hp : (p.1 == k) = true
    · rw [if_pos hp]
      by_cases h : k' = k
      · subst h
        simp [dlookup_cons, hp]
      · have hp1 : (p.1 == k') = false := by
          rw [beq_iff_eq] at hp
          rw [hp]
          exact beq_eq_false_iff_ne.mpr (fun hc => h hc.symm)
        simp [dlookup_cons, h, hp1]
    · rw [if_neg hp]
      have hp0 : (p.1 == k) = false := bool_eq_false hp
      by_cases hpk : (p.1 == k') = true
      · have h : ¬(k' = k) := by
          have hpk2 : p.1 = k' := by rw [← beq_iff_eq]; exact hpk
          intro hc
          rw [hpk2, hc] at hp0
          simp at hp0
        simp [dlookup_cons, ih, hpk, h]
      · simp [dlookup_cons, ih, bool_eq_false hpk, hp0]

end MHE

namespace MHE

lemma dictSet_keys (d : List (PyStr × SearchResult)) (k : PyStr) (v : SearchResult) :
    (dictSet d k v).map Prod.fst =
      if d.any (fun p => p.1 == k) then d.map Prod.fst
      else d.map Prod.fst ++ [k] := by
  induction d with
  | nil => rfl
  | cons p rest ih =>
    unfold dictSet
    by_cases hp : (p.1 == k) = true
    · rw [if_pos hp]
      have hone : ((p :: rest).any (fun q => q.1 == k)) = true := by
        simp [List.any_cons, hp]
      rw [hone]
      simp only [List.map_cons, if_true]
      rw [beq_iff_eq] at hp
      rw [hp]
    · have hp0 : (p.1 == k) = false := bool_eq_false hp
      rw [if_neg hp]
      simp only [List.map_cons, List.any_cons, hp0, Bool.false_or, ih]
      by_cases hrest : (rest.any (fun q => q.1 == k)) = true
      · simp [hrest]
      · simp [bool_eq_false hrest]

lemma dictAddScore_keys (d : List (PyStr × SearchResult)) (k : PyStr)
    (v : SearchResult) :
    (dictAddScore d k v).map Prod.fst =
      if d.any (fun p => p.1 == k) then d.map Prod.fst
      else d.map Prod.fst ++ [k] := by
  induction d with
  | nil => rfl
  | cons p rest ih =>
    unfold dictAddScore
    by_cases hp : (p.1 == k) = true
    · rw [if_pos hp]
      have hone : ((p :: rest).any (fun q => q.1 == k)) = true := by
        simp [List.any_cons, hp]
      rw [hone]
      simp only [List.map_cons, if_true]
    · have hp0 : (p.1 == k) = false := bool_eq_false hp
      rw [if_neg hp]
      simp only [List.map_cons, List.any_cons, hp0, Bool.false_or, ih]
      by_cases hrest : (rest.any (fun q => q.1 == k)) = true
      · simp [hrest]
      · simp [bool_eq_false hrest]

lemma keys_nodup_dictSet (d : List (PyStr × SearchResult)) (k : PyStr)
    (v : SearchResult) (h : (d.map Prod.fst).Nodup) :
    ((dictSet d k v).map Prod.fst).Nodup := by
  rw [dictSet_keys]
  by_cases hany : (d.any (fun p => p.1 == k)) = true
  · rw [if_pos hany]; exact h
  · rw [if_neg hany]
    rw [List.nodup_append]
    refine ⟨h, List.nodup_singleton _, ?_⟩
    intro x hx hx1
    simp only [List.mem_singleton] at hx1
    subst hx1
    obtain ⟨p, hp, hkey⟩ := List.mem_map.mp hx
    exact hany (List.any_eq_true.mpr ⟨p, hp, by rw [hkey]; exact beq_self_eq_true x⟩)

lemma keys_nodup_dictAddScore (d : List (PyStr × SearchResult)) (k : PyStr)
    (v : SearchResult) (h : (d.map Prod.fst).Nodup) :
    ((dictAddScore d k v).map Prod.fst).Nodup := by
  rw [dictAddScore_keys]
  by_cases hany : (d.any (fun p => p.1 == k)) = true
  · rw [if_pos hany]; exact h
  · rw [if_neg hany]
    rw [List.nodup_append]
    refine ⟨h, List.nodup_singleton _, ?_⟩
    intro x hx hx1
    simp only [List.mem_singleton] at hx1
    subst hx1
    obtain ⟨p, hp, hkey⟩ := List.mem_map.mp hx
    exact hany (List.any_eq_true.mpr ⟨p, hp, by rw [hkey]; exact beq_self_eq_true x⟩)

lemma entries_dictSet (d : List (PyStr × SearchResult)) (k : PyStr)
    (v : SearchResult) (h : ∀ p ∈ d, p.2.id = p.1) (hv : v.id = k) :
    ∀ p ∈ dictSet d k v, p.2.id = p.1 := by
  induction d with
  | nil =>
    intro p hp
    simp only [dictSet, List.mem_singleton] at hp
    subst hp
    exact hv
  | cons q rest ih =>
    intro p hp
    unfold dictSet at hp
    by_cases hq : (q.1 == k) = true
    · rw [if_pos hq] at hp
      rcases List.mem_cons.mp hp with h1 | h1
      · subst h1; exact hv
      · exact h p (List.mem_cons_of_mem q h1)
    · rw [if_neg hq] at hp
      rcases List.mem_cons.mp hp with h1 | h1
      · rw [h1]; exact h q (List.mem_cons_self q rest)
      · exact ih (fun x hx => h x (List.mem_cons_of_mem q hx)) p h1

lemma entries_dictAddScore (d : List (PyStr × SearchResult)) (k : PyStr)
    (v : SearchResult) (h : ∀ p ∈ d, p.2.id = p.1) (hv : v.id = k) :
    ∀ p ∈ dictAddScore d k v, p.2.id = p.1 := by
  induction d with
  | nil =>
    intro p hp
    simp only [dictAddScore, List.mem_singleton] at hp
    subst hp
    exact hv
  | cons q rest ih =>
    intro p hp
    unfold dictAddScore at hp
    by_cases hq : (q.1 == k) = true
    · rw [if_pos hq] at hp
      rcases List.mem_cons.mp hp with h1 | h1
      · subst h1
        exact h q (List.mem_cons_self q rest)
      · exact h p (List.mem_cons_of_mem q h1)
    · rw [if_neg hq] at hp
      rcases List.mem_cons.mp hp with h1 | h1
      · rw [h1]; exact h q (List.mem_cons_self q rest)
      · exact ih (fun x hx => h x (List.mem_cons_of_mem q hx)) p h1

lemma dlookup_of_mem (d : List (PyStr × SearchResult)) (p : PyStr × SearchResult)
    (hmem : p ∈ d) (hnd : (d.map Prod.fst).Nodup) : dlookup d p.1 = some p.2 := by
  induction d with
  | nil => exact absurd hmem (List.not_mem_nil p)
  | cons q rest ih =>
    rw [dlookup_cons]
    rcases List.mem_cons.mp hmem with h1 | h1
    · subst h1
      rw [if_pos (beq_self_eq_true p.1)]
    · have hq : q.1 ≠ p.1 := by
        intro hc
        have := (List.nodup_cons.mp hnd).1
        exact this (hc ▸ List.mem_map.mpr ⟨p, h1, rfl⟩)
      rw [if_neg (by simp [hq])]
      exact ih h1 (List.nodup_cons.mp hnd).2

end MHE

namespace MHE

lemma textFold_lookup (tw : ℚ) (ts : List SearchResult) :
    ∀ (d0 : List (PyStr × SearchResult)) (k : PyStr),
    (ts.map SearchResult.id).Nodup →
    dlookup (ts.foldl (fun d r => dictSet d r.id { r with score := r.score * tw }) d0) k =
      (match ts.find? (fun t => t.id == k) with
       | some t => some { t with score := t.score * tw }
       | none => dlookup d0 k) := by
  induction ts with
  | nil => intro d0 k _; rfl
  | cons t rest ih =>
    intro d0 k hnd
    rw [List.map_cons, List.nodup_cons] at hnd
    obtain ⟨hnotin, hrest⟩ := hnd
    have hstep : (t :: rest).foldl (fun d r => dictSet d r.id { r with score := r.score * tw }) d0
        = rest.foldl (fun d r => dictSet d r.id { r with score := r.score * tw })
            (dictSet d0 t.id { t with score := t.score * tw }) := rfl
    rw [hstep, ih _ k hrest]
    by_cases hk : (t.id == k) = true
    · have hkeq : t.id = k := by rw [← beq_iff_eq]; exact hk
      rw [List.find?_cons_of_pos rest hk]
      have hnone : rest.find? (fun x => x.id == k) = none := by
        rw [List.find?_eq_none]
        intro x hx
        simp only [beq_iff_eq]
        intro hc
        exact hnotin (List.mem_map.mpr ⟨x, hx, by rw [hc, hkeq]⟩)
      rw [hnone, dictSet_lookup, if_pos hkeq.symm]
    · rw [List.find?_cons_of_neg rest (by simp [bool_eq_false hk])]
      cases hfind : rest.find? (fun x => x.id == k) with
      | some x => rfl
      | none =>
        rw [dictSet_lookup, if_neg (fun hc : k = t.id => hk (by rw [hc]; exact beq_self_eq_true t.id))]

lemma vecFold_lookup (vw : ℚ) (vs : List SearchResult) :
    ∀ (d0 : List (PyStr × SearchResult)) (k : PyStr),
    (vs.map SearchResult.id).Nodup →
    dlookup (vs.foldl (fun d r => dictAddScore d r.id { r with score := r.score * vw }) d0) k =
      (match vs.find? (fun x => x.id == k) with
       | some x =>
         (match dlookup d0 k with
          | some w => some { w with score := w.score + x.score * vw }
          | none => some { x with score := x.score * vw })
       | none => dlookup d0 k) := by
  induction vs with
  | nil => intro d0 k _; rfl
  | cons v rest ih =>
    intro d0 k hnd
    rw [List.map_cons, List.nodup_cons] at hnd
    obtain ⟨hnotin, hrest⟩ := hnd
    have hstep : (v :: rest).foldl (fun d r => dictAddScore d r.id { r with score := r.score * vw }) d0
        = rest.foldl (fun d r => dictAddScore d r.id { r with score := r.score * vw })
            (dictAddScore d0 v.id { v with score := v.score * vw }) := rfl
    rw [hstep, ih _ k hrest]
    by_cases hk : (v.id == k) = true
    · have hkeq : v.id = k := by rw [← beq_iff_eq]; exact hk
      rw [List.find?_cons_of_pos rest hk]
      have hnone : rest.find? (fun x => x.id == k) = none := by
        rw [List.find?_eq_none]
        intro x hx
        simp only [beq_iff_eq]
        intro hc
        exact hnotin (List.mem_map.mpr ⟨x, hx, by rw [hc, hkeq]⟩)
      rw [hnone]
      dsimp only
      rw [dictAddScore_lookup, if_pos hkeq.symm, hkeq]
    · rw [List.find?_cons_of_neg rest (by simp [bool_eq_false hk])]
      cases hfind : rest.find? (fun x => x.id == k) with
      | some x =>
        dsimp only
        rw [dictAddScore_lookup,
          if_neg (fun hc : k = v.id => hk (by rw [hc]; exact beq_self_eq_true v.id))]
      | none =>
        dsimp only
        rw [dictAddScore_lookup,
          if_neg (fun hc : k = v.id => hk (by rw [hc]; exact beq_self_eq_true v.id))]

lemma textFold_keys_nodup (tw : ℚ) (ts : List SearchResult) :
    ∀ (d0 : List (PyStr × SearchResult)), (d0.map Prod.fst).Nodup →
    ((ts.foldl (fun d r => dictSet d r.id { r with score := r.score * tw }) d0).map
      Prod.fst).Nodup := by
  induction ts with
  | nil => intro d0 h; exact h
  | cons t rest ih =>
    intro d0 h
    exact ih _ (keys_nodup_dictSet d0 t.id _ h)

lemma vecFold_keys_nodup (vw : ℚ) (vs : List SearchResult) :
    ∀ (d0 : List (PyStr × SearchResult)), (d0.map Prod.fst).Nodup →
    ((vs.foldl (fun d r => dictAddScore d r.id { r with score := r.score * vw }) d0).map
      Prod.fst).Nodup := by
  induction vs with
  | nil => intro d0 h; exact h
  | cons v rest ih =>
    intro d0 h
    exact ih _ (keys_nodup_dictAddScore d0 v.id _ h)

lemma textFold_entries (tw : ℚ) (ts : List SearchResult) :
    ∀ (d0 : List (PyStr × SearchResult)), (∀ p ∈ d0, p.2.id = p.1) →
    ∀ p ∈ ts.foldl (fun d r => dictSet d r.id { r with score := r.score * tw }) d0,
      p.2.id = p.1 := by
  induction ts with
  | nil => intro d0 h; exact h
  | cons t rest ih =>
    intro d0 h
    exact ih _ (entries_dictSet d0 t.id _ h rfl)

lemma vecFold_entries (vw : ℚ) (vs : List SearchResult) :
    ∀ (d0 : List (PyStr × SearchResult)), (∀ p ∈ d0, p.2.id = p.1) →
    ∀ p ∈ vs.foldl (fun d r => dictAddScore d r.id { r with score := r.score * vw }) d0,
      p.2.id = p.1 := by
  induction vs with
  | nil => intro d0 h; exact h
  | cons v rest ih =>
    intro d0 h
    exact ih _ (entries_dictAddScore d0 v.id _ h rfl)

end MHE

namespace MHE

lemma fuseDict_char (ts vs : List SearchResult) (tw vw : ℚ)
    (ht : (ts.map SearchResult.id).Nodup) (hv : (vs.map SearchResult.id).Nodup)
    (p : PyStr × SearchResult) (hp : p ∈ fuseDict ts vs tw vw) :
    p.2.id = p.1 ∧ p.2.score = fusedScoreSpec ts vs tw vw p.1 ∧
    (ts.any (fun t => t.id == p.1) || vs.any (fun x => x.id == p.1)) = true := by
  unfold fuseDict at hp
  dsimp only at hp
  have hid : p.2.id = p.1 :=
    vecFold_entries vw vs _ (textFold_entries tw ts [] (fun q hq => absurd hq (List.not_mem_nil q)))
      p hp
  have hnd : (((vs.foldl (fun d r => dictAddScore d r.id { r with score := r.score * vw })
      (ts.foldl (fun d r => dictSet d r.id { r with score := r.score * tw }) [])).map
      Prod.fst)).Nodup :=
    vecFold_keys_nodup vw vs _ (textFold_keys_nodup tw ts [] List.nodup_nil)
  have hlk := dlookup_of_mem _ p hp hnd
  rw [vecFold_lookup vw vs _ p.1 hv, textFold_lookup tw ts [] p.1 ht] at hlk
  unfold fusedScoreSpec
  refine ⟨hid, ?_⟩
  cases hT : ts.find? (fun t => t.id == p.1) with
  | some t =>
    have hTmem := List.mem_of_find?_eq_some hT
    have hTpred := List.find?_some hT
    cases hV : vs.find? (fun x => x.id == p.1) with
    | some x =>
      rw [hT, hV] at hlk
      dsimp only [dlookup] at hlk
      have hps : p.2 = { t with score := t.score * tw + x.score * vw } := by
        injection hlk with h2
        exact h2.symm
      constructor
      · rw [hps]
      · rw [Bool.or_eq_true]
        exact Or.inl (List.any_eq_true.mpr ⟨t, hTmem, hTpred⟩)
    | none =>
      rw [hT, hV] at hlk
      dsimp only [dlookup] at hlk
      have hps : p.2 = { t with score := t.score * tw } := by
        injection hlk with h2
        exact h2.symm
      constructor
      · rw [hps]
        exact (add_zero _).symm
      · rw [Bool.or_eq_true]
        exact Or.inl (List.any_eq_true.mpr ⟨t, hTmem, hTpred⟩)
  | none =>
    cases hV : vs.find? (fun x => x.id == p.1) with
    | some x =>
      have hVmem := List.mem_of_find?_eq_some hV
      have hVpred := List.find?_some hV
      rw [hT, hV] at hlk
      dsimp only [dlookup] at hlk
      have hps : p.2 = { x with score := x.score * vw } := by
        injection hlk with h2
        exact h2.symm
      constructor
      · rw [hps]
        exact (zero_add _).symm
      · rw [Bool.or_eq_true]
        exact Or.inr (List.any_eq_true.mpr ⟨x, hVmem, hVpred⟩)
    | none =>
      rw [hT, hV] at hlk
      dsimp only [dlookup] at hlk
      exact Option.noConfusion hlk

/-- C7: the claimed per-`(id, kind)` additive fusion, corrected to the
code's per-`id` fusion: when the text and vector result lists each carry
pairwise distinct ids, every result of the combination step has score
`text_weight * (its text score) + vector_weight * (its vector score)` — a
missing component contributing 0, the match made on `result.id` alone — and
its id occurs in at least one of the two lists. -/
theorem C7_fusion_by_id (tresp vresp : SearchResponse) (tw vw : ℚ) (limit : Nat)
    (vq : PyStr) (r : SearchResult)
    (ht : (tresp.results.map SearchResult.id).Nodup)
    (hv : (vresp.results.map SearchResult.id).Nodup)
    (hr : r ∈ (combineHybrid tresp vresp tw vw limit vq).results) :
    r.score = fusedScoreSpec tresp.results vresp.results tw vw r.id ∧
    (tresp.results.any (fun t => t.id == r.id) ||
     vresp.results.any (fun x => x.id == r.id)) = true := by
  unfold combineHybrid at hr
  dsimp only at hr
  have hr1 : r ∈ (fuseDict tresp.results vresp.results tw vw).map (fun p => p.2) :=
    (mem_sortByScoreDesc r _).mp (List.mem_of_mem_take hr)
  obtain ⟨p, hp, hpr⟩ := List.mem_map.mp hr1
  obtain ⟨hid, hsc, hany⟩ :=
    fuseDict_char tresp.results vresp.results tw vw ht hv p hp
  constructor
  · rw [← hpr, hsc, hid]
  · rw [← hpr, hid]
    exact hany

end MHE

namespace MHE

/-- C7 (witness): `C7_fusion_by_id` applied to singleton text and vector
result lists sharing the id `"m1"`: the fused score is
`0.3 * 0.1 + 0.7 * 0.5 = 19/50`. -/
theorem C7_witness :
    (⟨[109, 49], pstr "message", appleStr, none, 19/50, 0, [97], [116]⟩ : SearchResult).score =
      fusedScoreSpec
        [⟨[109, 49], pstr "message", appleStr, none, 1/10, 0, [97], [116]⟩]
        [⟨[109, 49], pstr "memory_card", appleStr, none, 1/2, 0, [97], [116]⟩]
        (3/10) (7/10)
        (⟨[109, 49], pstr "message", appleStr, none, 19/50, 0, [97], [116]⟩ : SearchResult).id ∧
    (([(⟨[109, 49], pstr "message", appleStr, none, 1/10, 0, [97], [116]⟩ : SearchResult)].any
        (fun t => t.id ==
          (⟨[109, 49], pstr "message", appleStr, none, 19/50, 0, [97], [116]⟩ : SearchResult).id)) ||
     ([(⟨[109, 49], pstr "memory_card", appleStr, none, 1/2, 0, [97], [116]⟩ : SearchResult)].any
        (fun x => x.id ==
          (⟨[109, 49], pstr "message", appleStr, none, 19/50, 0, [97], [116]⟩ : SearchResult).id))) =
      true :=
  C7_fusion_by_id
    ⟨[⟨[109, 49], pstr "message", appleStr, none, 1/10, 0, [97], [116]⟩], 1, appleStr, pstr "text"⟩
    ⟨[⟨[109, 49], pstr "memory_card", appleStr, none, 1/2, 0, [97], [116]⟩], 1, appleStr,
      pstr "vector_fallback"⟩
    (3/10) (7/10) 10 appleStr
    ⟨[109, 49], pstr "message", appleStr, none, 19/50, 0, [97], [116]⟩
    (by decide) (by decide)
    (by norm_num [combineHybrid, fuseDict, dictSet, dictAddScore, sortByScoreDesc,
      insertDescByScore, List.foldl, List.take])

/-- C7 (counterexample): fusion does not key on `(id, kind)`.  On a store
where a message and a memory card share the id `"x"` and both match the
query, the text pass returns both candidates (same id, different kinds),
yet the hybrid output holds a single fused result — the memory card's entry
overwrote the message's in the id-keyed dictionary, and the message
candidate vanished instead of keeping its own weighted term. -/
theorem C7_counterexample :
    (text_search storeC7 false ⟨appleStr, 20, 0, none, none, none, true, true⟩).map
      (fun resp => resp.results.map (fun r => (r.type, r.id))) =
      .ok [(pstr "message", [120]), (pstr "memory_card", [120])] ∧
    (hybrid_search storeC7 false false ⟨appleStr, 3/10, 7/10, 10, none⟩).map
      (fun resp => resp.results.map (fun r => (r.type, r.id, r.score))) =
      .ok [(pstr "memory_card", [120], 3/100)] := by
  constructor
  · norm_num [text_search, validate_appleL, terms_appleL, validate_pagination,
      validate_integer, validate_assistant_filter, text_search_core, messageRows,
      threadOf, assistantOf, filteredMessageRows, matchesAllTerms, termCondition,
      containsSub, countOcc, countOccGo, listStartsWith, pyLower, lowerChar, tfScore,
      truncate500, messageBlock, messageResult, artifactsOf, artifactResult, cardRows,
      filteredCardRows, cardMatchesAllTerms, cardTermCondition, cardResult,
      sortByScoreDesc, insertDescByScore, storeC7, appleStr, List.filter, List.filterMap,
      List.find?, List.foldr, List.take, List.drop, List.flatten, List.any, List.all,
      List.cons_ne_nil, countOcc.eq_def, Except.map]
  · rw [hybrid_search_ok storeC7 ⟨appleStr, 3/10, 7/10, 10, none⟩ appleStr
      validate_appleStr validate_appleStr rfl (by norm_num) (by norm_num) (by norm_num)
      (by norm_num) (by norm_num [ratAbs]) (by decide) (by decide)]
    norm_num [validate_appleL, terms_appleL, text_search_core, vector_search_core,
      messageRows, threadOf, assistantOf, filteredMessageRows, matchesAllTerms,
      termCondition, containsSub, countOcc, countOccGo, listStartsWith, pyLower,
      lowerChar, tfScore, truncate500, messageBlock, messageResult, artifactsOf,
      artifactResult, cardRows, filteredCardRows, cardMatchesAllTerms, cardTermCondition,
      cardResult, sortByScoreDesc, insertDescByScore, storeC7, appleStr,
      combineHybrid, fuseDict, dictSet, dictAddScore, List.filter, List.filterMap,
      List.find?, List.foldr, List.foldl, List.take, List.drop, List.flatten, List.any,
      List.all, List.cons_ne_nil, countOcc.eq_def, Except.map]

end MHE
